import Mathlib

/-!
# Taskbar thumbnail size (absolute values): size policy and module acquisition

A shallow embedding of `taskbar-thumbnails-absolute-size.wh.cpp`.

* `FloatVal` models the C++ `float` (IEEE 754 binary32): a finite value is the rational number
  it denotes, next to the negative zero, the two infinities and NaN. Every arithmetic result
  and every conversion from `int` is rounded to the nearest `float`, ties to even, with
  overflow to an infinity and gradual underflow (`FloatVal.roundToFloat`).
* `ThumbnailHelpers_GetScaledThumbnailSize_Hook` is the size transform; the original routine of
  the hooked module is a parameter.
* `ModState`, `Wh_ModInit`, `HandleLoadedModuleIfTaskbarView` and `Wh_ModAfterInit` model the
  acquisition of the taskbar view module as sequential steps on the flag
  `g_taskbarViewDllLoaded`, with a counter of the calls of `HookTaskbarViewDllSymbols`
  (interleavings of threads are not modelled: every event runs to completion).
-/

namespace TaskbarThumbnails

/-! ## The model of `float` -/

/-- A `float` value: a finite value (the rational it denotes; `fin 0` is the positive zero),
the negative zero, plus infinity, minus infinity, or NaN. -/
inductive FloatVal where
  | fin (q : ℚ)
  | nzero
  | pinf
  | ninf
  | nan
  deriving DecidableEq

namespace FloatVal

/-- The infinity of the given sign (`true` is negative). -/
def inf (neg : Bool) : FloatVal := if neg then ninf else pinf

/-- The zero of the given sign (`true` is negative). -/
def zero (neg : Bool) : FloatVal := if neg then nzero else fin 0

/-- Rounding of a non-zero rational `q` to binary32, given the exponent `e` of its binade
(`2^e ≤ |q| < 2^(e+1)`): the quantum is `2^(e-23)`, and `2^(-149)` in the subnormal range; the
scaled magnitude is rounded to the nearest integer, ties to the even one; a result of
magnitude `2^128` or more is an infinity, and a result 0 keeps the sign of `q`. -/
def roundAt (e : Int) (q : ℚ) : FloatVal :=
  let a := if q < 0 then -q else q
  let qe := max (e - 23) (-149)
  let x := a / (2 : ℚ) ^ qe
  let f := ⌊x⌋
  let r := x - f
  let m : Int :=
    if r < 1 / 2 then f else if 1 / 2 < r then f + 1 else if f % 2 = 0 then f else f + 1
  let v : ℚ := m * (2 : ℚ) ^ qe
  if (2 : ℚ) ^ (128 : Int) ≤ v then inf (decide (q < 0))
  else if v = 0 then zero (decide (q < 0))
  else fin (if q < 0 then -v else v)

/-- Rounding of an exact result to the nearest `float`, ties to even. -/
def roundToFloat (q : ℚ) : FloatVal :=
  if q = 0 then fin 0 else roundAt (Int.log 2 (if q < 0 then -q else q)) q

/-- Conversion of an `int` to `float` (`static_cast<float>` and the implicit conversion in a
mixed comparison). -/
def ofInt (i : Int) : FloatVal := roundToFloat (i : ℚ)

/-- Multiplication of two values: the exact product is rounded; a zero times an infinity and
anything with NaN give NaN; the sign of a zero or infinite result is the product of the
signs. -/
def mul : FloatVal → FloatVal → FloatVal
  | nan, _ => nan
  | _, nan => nan
  | fin a, fin b =>
      if a * b = 0 then zero (xor (decide (a < 0)) (decide (b < 0))) else roundToFloat (a * b)
  | fin a, nzero => zero (!decide (a < 0))
  | nzero, fin b => zero (!decide (b < 0))
  | nzero, nzero => fin 0
  | fin a, pinf => if a = 0 then nan else inf (decide (a < 0))
  | fin a, ninf => if a = 0 then nan else inf (!decide (a < 0))
  | pinf, fin b => if b = 0 then nan else inf (decide (b < 0))
  | ninf, fin b => if b = 0 then nan else inf (!decide (b < 0))
  | nzero, pinf => nan
  | nzero, ninf => nan
  | pinf, nzero => nan
  | ninf, nzero => nan
  | pinf, pinf => pinf
  | pinf, ninf => ninf
  | ninf, pinf => ninf
  | ninf, ninf => pinf

/-- Division of two values: the exact quotient is rounded; a non-zero value over a zero is an
infinity; `0 / 0`, `inf / inf` and anything with NaN give NaN; the sign of a zero or infinite
result is the quotient of the signs. -/
def div : FloatVal → FloatVal → FloatVal
  | nan, _ => nan
  | _, nan => nan
  | fin a, fin b =>
      if b = 0 then (if a = 0 then nan else inf (decide (a < 0)))
      else if a = 0 then zero (decide (b < 0))
      else roundToFloat (a / b)
  | fin a, nzero => if a = 0 then nan else inf (!decide (a < 0))
  | nzero, fin b => if b = 0 then nan else zero (!decide (b < 0))
  | nzero, nzero => nan
  | fin a, pinf => zero (decide (a < 0))
  | fin a, ninf => zero (!decide (a < 0))
  | nzero, pinf => nzero
  | nzero, ninf => fin 0
  | pinf, fin b => inf (decide (b < 0))
  | ninf, fin b => inf (!decide (b < 0))
  | pinf, nzero => ninf
  | ninf, nzero => pinf
  | pinf, pinf => nan
  | pinf, ninf => nan
  | ninf, pinf => nan
  | ninf, ninf => nan

/-- The comparison `x < y`: false as soon as one side is NaN; the two zeros are equal. -/
def lt : FloatVal → FloatVal → Bool
  | nan, _ => false
  | _, nan => false
  | fin a, fin b => decide (a < b)
  | fin a, nzero => decide (a < 0)
  | nzero, fin b => decide (0 < b)
  | nzero, nzero => false
  | fin _, pinf => true
  | nzero, pinf => true
  | fin _, ninf => false
  | nzero, ninf => false
  | pinf, _ => false
  | ninf, ninf => false
  | ninf, _ => true

/-- The comparison `x > y`. -/
def gt (x y : FloatVal) : Bool := lt y x

/-- A value is finite when it is neither an infinity nor NaN. -/
def isFinite : FloatVal → Bool
  | fin _ => true
  | nzero => true
  | _ => false

end FloatVal

/-! ## Data model -/

/-- The range of the C type `int` (32 bits). -/
def isInt32 (i : Int) : Prop := -2147483648 ≤ i ∧ i ≤ 2147483647

instance (i : Int) : Decidable (isInt32 i) := by
  unfold isInt32; infer_instance

/-- The global `g_settings`; the five numeric settings are of type `int`. -/
structure Settings where
  minWidth : Int
  maxWidth : Int
  minHeight : Int
  maxHeight : Int
  preserveAspectRatio : Bool
  useAbsoluteSize : Bool
  percentageSize : Int
  minWidth_int : isInt32 minWidth := by decide
  maxWidth_int : isInt32 maxWidth := by decide
  minHeight_int : isInt32 minHeight := by decide
  maxHeight_int : isInt32 maxHeight := by decide
  percentageSize_int : isInt32 percentageSize := by decide

/-- The type `winrt::Windows::Foundation::Size`. -/
structure Size where
  Width : FloatVal
  Height : FloatVal
  deriving DecidableEq

/-! ## The size transform -/

/-- The hook of `ThumbnailHelpers::GetScaledThumbnailSize`. The parameter `orig` is
`ThumbnailHelpers_GetScaledThumbnailSize_Original`, seen as the function from its arguments
`(size, scale)` to the size it writes to `*result`; the value returned here is the content of
`*result` when the hook returns. In the legacy branch the quotient by the literal `100.0` is
rounded once, to `float`. -/
def ThumbnailHelpers_GetScaledThumbnailSize_Hook (orig : Size → FloatVal → Size)
    (g_settings : Settings) (size : Size) (scale : FloatVal) : Size :=
  if g_settings.useAbsoluteSize then
    let originalResult := orig size scale
    let currentWidth := originalResult.Width
    let currentHeight := originalResult.Height
    let aspectRatio := FloatVal.div currentHeight currentWidth
    let targetWidth := currentWidth
    let targetHeight := currentHeight
    if g_settings.preserveAspectRatio then
      -- Apply width constraints first
      let targetWidth :=
        if decide (g_settings.minWidth > 0)
            && FloatVal.lt targetWidth (FloatVal.ofInt g_settings.minWidth) then
          FloatVal.ofInt g_settings.minWidth
        else targetWidth
      let targetWidth :=
        if decide (g_settings.maxWidth > 0)
            && FloatVal.gt targetWidth (FloatVal.ofInt g_settings.maxWidth) then
          FloatVal.ofInt g_settings.maxWidth
        else targetWidth
      -- Calculate height based on width
      let targetHeight := FloatVal.mul targetWidth aspectRatio
      -- Check if height constraints would be violated
      let heightAdjusted := false
      let (targetHeight, heightAdjusted) :=
        if decide (g_settings.minHeight > 0)
            && FloatVal.lt targetHeight (FloatVal.ofInt g_settings.minHeight) then
          (FloatVal.ofInt g_settings.minHeight, true)
        else (targetHeight, heightAdjusted)
      let (targetHeight, heightAdjusted) :=
        if decide (g_settings.maxHeight > 0)
            && FloatVal.gt targetHeight (FloatVal.ofInt g_settings.maxHeight) then
          (FloatVal.ofInt g_settings.maxHeight, true)
        else (targetHeight, heightAdjusted)
      -- If height was adjusted, recalculate width to maintain aspect ratio
      if heightAdjusted then
        let targetWidth := FloatVal.div targetHeight aspectRatio
        -- Recheck width constraints after recalculation
        let (targetWidth, targetHeight) :=
          if decide (g_settings.minWidth > 0)
              && FloatVal.lt targetWidth (FloatVal.ofInt g_settings.minWidth) then
            (FloatVal.ofInt g_settings.minWidth,
              FloatVal.mul (FloatVal.ofInt g_settings.minWidth) aspectRatio)
          else (targetWidth, targetHeight)
        let (targetWidth, targetHeight) :=
          if decide (g_settings.maxWidth > 0)
              && FloatVal.gt targetWidth (FloatVal.ofInt g_settings.maxWidth) then
            (FloatVal.ofInt g_settings.maxWidth,
              FloatVal.mul (FloatVal.ofInt g_settings.maxWidth) aspectRatio)
          else (targetWidth, targetHeight)
        { Width := targetWidth, Height := targetHeight }
      else
        { Width := targetWidth, Height := targetHeight }
    else
      -- Apply width and height constraints independently (ignore aspect ratio)
      let targetWidth :=
        if decide (g_settings.minWidth > 0)
            && FloatVal.lt targetWidth (FloatVal.ofInt g_settings.minWidth) then
          FloatVal.ofInt g_settings.minWidth
        else targetWidth
      let targetWidth :=
        if decide (g_settings.maxWidth > 0)
            && FloatVal.gt targetWidth (FloatVal.ofInt g_settings.maxWidth) then
          FloatVal.ofInt g_settings.maxWidth
        else targetWidth
      let targetHeight :=
        if decide (g_settings.minHeight > 0)
            && FloatVal.lt targetHeight (FloatVal.ofInt g_settings.minHeight) then
          FloatVal.ofInt g_settings.minHeight
        else targetHeight
      let targetHeight :=
        if decide (g_settings.maxHeight > 0)
            && FloatVal.gt targetHeight (FloatVal.ofInt g_settings.maxHeight) then
          FloatVal.ofInt g_settings.maxHeight
        else targetHeight
      { Width := targetWidth, Height := targetHeight }
  else
    -- Legacy percentage-based mode
    orig size
      (FloatVal.div (FloatVal.mul scale (FloatVal.ofInt g_settings.percentageSize))
        (FloatVal.fin 100))

/-- The settings block of the source file: the default value of every setting. -/
def defaultSettings : Settings :=
  { minWidth := 200, maxWidth := 400, minHeight := 150, maxHeight := 300,
    preserveAspectRatio := false, useAbsoluteSize := true, percentageSize := 150 }

/-! ## The stages of the aspect-preserving branch on `float` values

The three stages below are the consecutive blocks of the branch; `hook_preserve_stages` shows
that the hook is their composition. -/

/-- The width clamp (lines 133-141) on a `float`. -/
def widthClampF (g : Settings) (t : FloatVal) : FloatVal :=
  let t :=
    if decide (g.minWidth > 0) && FloatVal.lt t (FloatVal.ofInt g.minWidth) then
      FloatVal.ofInt g.minWidth
    else t
  if decide (g.maxWidth > 0) && FloatVal.gt t (FloatVal.ofInt g.maxWidth) then
    FloatVal.ofInt g.maxWidth
  else t

/-- The two height checks (lines 147-158): the height and the flag `heightAdjusted`. -/
def heightStage (g : Settings) (t : FloatVal) : FloatVal × Bool :=
  let p : FloatVal × Bool :=
    if decide (g.minHeight > 0) && FloatVal.lt t (FloatVal.ofInt g.minHeight) then
      (FloatVal.ofInt g.minHeight, true)
    else (t, false)
  if decide (g.maxHeight > 0) && FloatVal.gt p.1 (FloatVal.ofInt g.maxHeight) then
    (FloatVal.ofInt g.maxHeight, true)
  else (p.1, p.2)

/-- The recheck of the width constraints (lines 166-176) on the recomputed width `t`, with the
height `th` and the aspect ratio `ar`: the width and the height. -/
def widthStage (g : Settings) (ar t th : FloatVal) : FloatVal × FloatVal :=
  let p : FloatVal × FloatVal :=
    if decide (g.minWidth > 0) && FloatVal.lt t (FloatVal.ofInt g.minWidth) then
      (FloatVal.ofInt g.minWidth, FloatVal.mul (FloatVal.ofInt g.minWidth) ar)
    else (t, th)
  if decide (g.maxWidth > 0) && FloatVal.gt p.1 (FloatVal.ofInt g.maxWidth) then
    (FloatVal.ofInt g.maxWidth, FloatVal.mul (FloatVal.ofInt g.maxWidth) ar)
  else (p.1, p.2)

/-! ## Module acquisition -/

/-- A module handle (`HMODULE`); `0` is the null handle. -/
abbrev HMODULE := Nat

/-- The state of the acquisition: the global flag, and two counters that record how often
`HookTaskbarViewDllSymbols` and `Wh_ApplyHookOperations` have been called. -/
structure ModState where
  g_taskbarViewDllLoaded : Bool
  hookCalls : Nat
  applyCalls : Nat
  deriving DecidableEq

/-- What the process answers during one event: the two `GetModuleHandle` results and whether
`HookSymbols` succeeds. -/
structure Env where
  taskbarView : HMODULE
  explorerExtensions : HMODULE
  hookSymbolsOk : Bool
  deriving DecidableEq

/-- The state before `Wh_ModInit`: the global flag is zero-initialised. -/
def initialState : ModState :=
  { g_taskbarViewDllLoaded := false, hookCalls := 0, applyCalls := 0 }

/-- The lookup of `Taskbar.View.dll`, with `ExplorerExtensions.dll` as a fallback. -/
def GetTaskbarViewModuleHandle (e : Env) : HMODULE :=
  let module := e.taskbarView
  if module = 0 then e.explorerExtensions else module

/-- The installation of the two symbol hooks: it returns whether `HookSymbols` succeeded, and
the call is counted. -/
def HookTaskbarViewDllSymbols (e : Env) (s : ModState) : Bool × ModState :=
  let s := { s with hookCalls := s.hookCalls + 1 }
  if !e.hookSymbolsOk then (false, s) else (true, s)

/-- The call `Wh_ApplyHookOperations()`, counted. -/
def Wh_ApplyHookOperations (s : ModState) : ModState :=
  { s with applyCalls := s.applyCalls + 1 }

/-- The call `g_taskbarViewDllLoaded.exchange(v)`: the old value, and the state with the new
value. -/
def exchange (s : ModState) (v : Bool) : Bool × ModState :=
  (s.g_taskbarViewDllLoaded, { s with g_taskbarViewDllLoaded := v })

/-- The load event `HandleLoadedModuleIfTaskbarView(module, lpLibFileName)`; the three
conjuncts of the condition are evaluated left to right, the exchange only when the first two
hold. -/
def HandleLoadedModuleIfTaskbarView (e : Env) (module : HMODULE) (s : ModState) : ModState :=
  if !s.g_taskbarViewDllLoaded && decide (GetTaskbarViewModuleHandle e = module) then
    let (old, s) := exchange s true
    if !old then
      let (ok, s) := HookTaskbarViewDllSymbols e s
      if ok then Wh_ApplyHookOperations s else s
    else s
  else s

/-- The entry point `Wh_ModInit`: the returned `BOOL` and the state. -/
def Wh_ModInit (e : Env) (s : ModState) : Bool × ModState :=
  let taskbarViewModule := GetTaskbarViewModuleHandle e
  if taskbarViewModule ≠ 0 then
    let s := { s with g_taskbarViewDllLoaded := true }
    let (ok, s) := HookTaskbarViewDllSymbols e s
    if !ok then (false, s) else (true, s)
  else (true, s)

/-- The entry point `Wh_ModAfterInit`. -/
def Wh_ModAfterInit (e : Env) (s : ModState) : ModState :=
  if !s.g_taskbarViewDllLoaded then
    let taskbarViewModule := GetTaskbarViewModuleHandle e
    if taskbarViewModule ≠ 0 then
      let (old, s) := exchange s true
      if !old then
        let (ok, s) := HookTaskbarViewDllSymbols e s
        if ok then Wh_ApplyHookOperations s else s
      else s
    else s
  else s

/-- An event after `Wh_ModInit`: a load event or a call of `Wh_ModAfterInit`, each with the
answers of the process during it. -/
inductive Event where
  | load (e : Env) (module : HMODULE)
  | afterInit (e : Env)

/-- One step of the acquisition logic. -/
def step (s : ModState) : Event → ModState
  | Event.load e module => HandleLoadedModuleIfTaskbarView e module s
  | Event.afterInit e => Wh_ModAfterInit e s

/-- The state after `Wh_ModInit` (with answers `e0`) followed by the events `evs`. The events
are run whatever `Wh_ModInit` returned, which covers the runs of a mod that stays loaded. -/
def runMod (e0 : Env) (evs : List Event) : ModState :=
  evs.foldl step (Wh_ModInit e0 initialState).2

/-- The invariant of the acquisition: at most one installation, and none while the flag is
still false. -/
def acquired (s : ModState) : Prop :=
  s.hookCalls ≤ 1 ∧ (s.g_taskbarViewDllLoaded = false → s.hookCalls = 0)

/-! ## Sample inputs -/

/-- The default settings with preserveAspectRatio enabled (the bounds of scenarios 1 and 2). -/
def aspectSettings : Settings := { defaultSettings with preserveAspectRatio := true }

/-- The default settings in legacy mode (`percentageSize = 150`). -/
def legacySettings : Settings := { defaultSettings with useAbsoluteSize := false }

/-- Settings whose width bounds conflict: `minWidth = 400 > maxWidth = 200`. -/
def conflictSettings : Settings :=
  { minWidth := 400, maxWidth := 200, minHeight := 150, maxHeight := 300,
    preserveAspectRatio := false, useAbsoluteSize := true, percentageSize := 150 }

/-- Settings with preserveAspectRatio enabled and both width bounds disabled. -/
def zeroWidthSettings : Settings :=
  { minWidth := 0, maxWidth := 0, minHeight := 150, maxHeight := 300,
    preserveAspectRatio := true, useAbsoluteSize := true, percentageSize := 150 }

/-- Settings in independent-axis mode whose two width bounds are `2^24 + 1`, an `int` that is
not a `float`. -/
def hugeSettings : Settings :=
  { minWidth := 16777217, maxWidth := 16777217, minHeight := 150, maxHeight := 300,
    preserveAspectRatio := false, useAbsoluteSize := true, percentageSize := 150 }

/-- Settings in independent-axis mode whose width bounds conflict above `2^24`:
`minWidth = 2^24 + 2 > maxWidth = 2^24 + 1`. -/
def hugeConflictSettings : Settings :=
  { minWidth := 16777218, maxWidth := 16777217, minHeight := 150, maxHeight := 300,
    preserveAspectRatio := false, useAbsoluteSize := true, percentageSize := 150 }

/-- The settings `hugeSettings` with preserveAspectRatio enabled. -/
def hugeAspectSettings : Settings := { hugeSettings with preserveAspectRatio := true }

/-- A stand-in for the original routine that returns the given size unchanged. -/
def sampleOriginal : Size → FloatVal → Size := fun size _ => size

/-- A stand-in for the original routine that multiplies both dimensions by the scale. -/
def scalingOriginal : Size → FloatVal → Size :=
  fun size scale => ⟨FloatVal.mul size.Width scale, FloatVal.mul size.Height scale⟩

/-- Answers of the process while the taskbar view module is not loaded. -/
def envAbsent : Env := { taskbarView := 0, explorerExtensions := 0, hookSymbolsOk := true }

/-- Answers of the process once the module is loaded at handle 7 and `HookSymbols` fails. -/
def envFailing : Env := { taskbarView := 7, explorerExtensions := 0, hookSymbolsOk := false }

/-- Answers of the process once the module is loaded at handle 7 and `HookSymbols` succeeds. -/
def envLoaded : Env := { taskbarView := 7, explorerExtensions := 0, hookSymbolsOk := true }

open FloatVal

/-! ## Auxiliary lemmas: rounding -/

/-- The binade of a positive rational determines its logarithm. -/
theorem log_eq (q : ℚ) (e : ℤ) (h1 : (2 : ℚ) ^ e ≤ q) (h2 : q < (2 : ℚ) ^ (e + 1)) :
    Int.log 2 q = e := by
  have hq : 0 < q := lt_of_lt_of_le (by positivity) h1
  have a1 : e ≤ Int.log 2 q := (Int.zpow_le_iff_le_log (by norm_num) hq).mp h1
  have a2 : Int.log 2 q < e + 1 := (Int.lt_zpow_iff_log_lt (by norm_num) hq).mp h2
  omega

/-- Rounding of a non-zero rational whose binade is given. -/
theorem roundToFloat_eval (q : ℚ) (e : ℤ) (h0 : q ≠ 0)
    (h1 : (2 : ℚ) ^ e ≤ (if q < 0 then -q else q))
    (h2 : (if q < 0 then -q else q) < (2 : ℚ) ^ (e + 1)) :
    roundToFloat q = roundAt e q := by
  rw [roundToFloat, if_neg h0, log_eq _ e h1 h2]

/-- Rounding never gives NaN. -/
theorem roundToFloat_ne_nan (q : ℚ) : roundToFloat q ≠ nan := by
  unfold roundToFloat roundAt FloatVal.inf FloatVal.zero
  simp only
  split_ifs <;> simp

/-- The integer chosen by the rounding lies between the floor and the floor plus one. -/
theorem round_choice_bounds (r : ℚ) (f : ℤ) :
    f ≤ (if r < 1 / 2 then f else if 1 / 2 < r then f + 1 else if f % 2 = 0 then f else f + 1)
      ∧ (if r < 1 / 2 then f else if 1 / 2 < r then f + 1 else if f % 2 = 0 then f else f + 1)
        ≤ f + 1 := by
  split_ifs <;> constructor <;> omega

/-- A rational of binade `e ≥ 0` below `2^127` rounds to a positive finite value. -/
theorem roundAt_pos_finite (e : ℤ) (q : ℚ) (he0 : 0 ≤ e) (hlo : (2 : ℚ) ^ e ≤ q)
    (h2 : q < (2 : ℚ) ^ (127 : ℤ)) :
    ∃ v : ℚ, 0 < v ∧ roundAt e q = fin v := by
  have hq : 0 < q := lt_of_lt_of_le (by positivity) hlo
  have hn : ¬q < 0 := not_lt.mpr hq.le
  have hqe : max (e - 23) (-149) = e - 23 := max_eq_left (by omega)
  have hp : (0 : ℚ) < (2 : ℚ) ^ (e - 23) := by positivity
  have hpe : (2 : ℚ) ^ (e - 23) ≤ (2 : ℚ) ^ e :=
    zpow_le_zpow_right₀ (by norm_num) (by omega)
  -- the scaled magnitude is at least 2^23
  have hx : (2 : ℚ) ^ (23 : ℤ) ≤ q / (2 : ℚ) ^ (e - 23) := by
    rw [le_div_iff₀ hp, ← zpow_add₀ (by norm_num : (2 : ℚ) ≠ 0)]
    simpa using hlo
  have hf : (8388608 : ℤ) ≤ ⌊q / (2 : ℚ) ^ (e - 23)⌋ := by
    rw [Int.le_floor]
    refine le_trans ?_ hx
    norm_num
  have hfx : (⌊q / (2 : ℚ) ^ (e - 23)⌋ : ℚ) ≤ q / (2 : ℚ) ^ (e - 23) := Int.floor_le _
  have hb := round_choice_bounds (q / (2 : ℚ) ^ (e - 23) - ⌊q / (2 : ℚ) ^ (e - 23)⌋)
    ⌊q / (2 : ℚ) ^ (e - 23)⌋
  unfold roundAt
  simp only [if_neg hn, hqe]
  generalize (if q / (2 : ℚ) ^ (e - 23) - ⌊q / (2 : ℚ) ^ (e - 23)⌋ < 1 / 2 then
      ⌊q / (2 : ℚ) ^ (e - 23)⌋
    else if 1 / 2 < q / (2 : ℚ) ^ (e - 23) - ⌊q / (2 : ℚ) ^ (e - 23)⌋ then
      ⌊q / (2 : ℚ) ^ (e - 23)⌋ + 1
    else if ⌊q / (2 : ℚ) ^ (e - 23)⌋ % 2 = 0 then ⌊q / (2 : ℚ) ^ (e - 23)⌋
    else ⌊q / (2 : ℚ) ^ (e - 23)⌋ + 1) = m at hb
  have hm0 : (0 : ℚ) < (m : ℚ) := by
    have : (0 : ℤ) < m := by omega
    exact_mod_cast this
  have hv0 : 0 < (m : ℚ) * (2 : ℚ) ^ (e - 23) := mul_pos hm0 hp
  have hm1 : (m : ℚ) ≤ q / (2 : ℚ) ^ (e - 23) + 1 := by
    have : (m : ℚ) ≤ (⌊q / (2 : ℚ) ^ (e - 23)⌋ : ℚ) + 1 := by exact_mod_cast hb.2
    linarith
  have hv1 : (m : ℚ) * (2 : ℚ) ^ (e - 23) ≤ q + (2 : ℚ) ^ (e - 23) := by
    calc (m : ℚ) * (2 : ℚ) ^ (e - 23)
        ≤ (q / (2 : ℚ) ^ (e - 23) + 1) * (2 : ℚ) ^ (e - 23) :=
          mul_le_mul_of_nonneg_right hm1 hp.le
      _ = q + (2 : ℚ) ^ (e - 23) := by field_simp
  have hv2 : (m : ℚ) * (2 : ℚ) ^ (e - 23) < (2 : ℚ) ^ (128 : ℤ) := by
    have h128 : (2 : ℚ) ^ (128 : ℤ) = 2 * (2 : ℚ) ^ (127 : ℤ) := by norm_num
    rw [h128]
    linarith
  refine ⟨(m : ℚ) * (2 : ℚ) ^ (e - 23), hv0, ?_⟩
  rw [if_neg (not_le.mpr hv2), if_neg (ne_of_gt hv0)]

/-- A rational in `[1, 2^127)` rounds to a positive finite value. -/
theorem roundToFloat_pos_finite (q : ℚ) (h1 : 1 ≤ q) (h2 : q < (2 : ℚ) ^ (127 : ℤ)) :
    ∃ v : ℚ, 0 < v ∧ roundToFloat q = fin v := by
  have hq : 0 < q := lt_of_lt_of_le one_pos h1
  have hn : ¬q < 0 := not_lt.mpr hq.le
  have hlo : (2 : ℚ) ^ Int.log 2 q ≤ q := Int.zpow_log_le_self (by norm_num) hq
  have he0 : 0 ≤ Int.log 2 q :=
    (Int.zpow_le_iff_le_log (by norm_num) hq).mp (by simpa using h1)
  rw [roundToFloat, if_neg (ne_of_gt hq), if_neg hn]
  exact roundAt_pos_finite _ q he0 hlo h2

/-- The conversion of a positive `int` is a positive finite value. -/
theorem ofInt_pos (m : Int) (h0 : 0 < m) (hm : isInt32 m) :
    ∃ v : ℚ, 0 < v ∧ FloatVal.ofInt m = fin v := by
  apply roundToFloat_pos_finite
  · exact_mod_cast h0
  · have h3 : (m : ℚ) ≤ 2147483647 := by exact_mod_cast hm.2
    refine lt_of_le_of_lt h3 ?_
    norm_num

/-- An `int` from 1 to `2^24` converts to `float` exactly. -/
theorem ofInt_exact (m : Int) (h0 : 0 < m) (hm : m ≤ 16777216) :
    FloatVal.ofInt m = fin (m : ℚ) := by
  have hq : (0 : ℚ) < (m : ℚ) := by exact_mod_cast h0
  have hn : ¬(m : ℚ) < 0 := not_lt.mpr hq.le
  rcases eq_or_lt_of_le hm with heq | hlt
  · subst heq
    unfold FloatVal.ofInt
    rw [roundToFloat_eval _ 24 (by norm_num) (by norm_num) (by norm_num)]
    norm_num [roundAt]
  · have hlo : (2 : ℚ) ^ Int.log 2 (m : ℚ) ≤ m := Int.zpow_log_le_self (by norm_num) hq
    have he0 : 0 ≤ Int.log 2 (m : ℚ) :=
      (Int.zpow_le_iff_le_log (by norm_num) hq).mp (by
        have : (1 : ℚ) ≤ (m : ℚ) := by exact_mod_cast h0
        simpa using this)
    have he1 : Int.log 2 (m : ℚ) < 24 :=
      (Int.lt_zpow_iff_log_lt (by norm_num) hq).mp (by
        have : (m : ℚ) < 16777216 := by exact_mod_cast hlt
        refine lt_of_lt_of_le this ?_
        norm_num)
    unfold FloatVal.ofInt
    rw [roundToFloat, if_neg (ne_of_gt hq), if_neg hn]
    generalize Int.log 2 (m : ℚ) = e at hlo he0 he1
    obtain ⟨k, hk⟩ : ∃ k : ℕ, (k : ℤ) = 23 - e := ⟨(23 - e).toNat, by omega⟩
    have hqe : max (e - 23) (-149) = -(k : ℤ) := by
      rw [max_eq_left (by omega)]; omega
    have hx : (m : ℚ) / (2 : ℚ) ^ (-(k : ℤ)) = ((m * 2 ^ k : ℤ) : ℚ) := by
      rw [zpow_neg, zpow_natCast]
      push_cast
      field_simp
    unfold roundAt
    simp only [if_neg hn, hqe, hx, Int.floor_intCast, sub_self]
    have hz : (0 : ℚ) < 1 / 2 := by norm_num
    rw [if_pos hz]
    have hv : ((m * 2 ^ k : ℤ) : ℚ) * (2 : ℚ) ^ (-(k : ℤ)) = (m : ℚ) := by
      rw [zpow_neg, zpow_natCast]
      push_cast
      field_simp
    rw [hv]
    have h128 : ¬(2 : ℚ) ^ (128 : ℤ) ≤ (m : ℚ) := by
      have : (m : ℚ) < 16777216 := by exact_mod_cast hlt
      rw [not_le]
      refine lt_trans this ?_
      norm_num
    rw [if_neg h128, if_neg (ne_of_gt hq)]

/-! ## Auxiliary lemmas: the stages of the hook -/

/-- The aspect-preserving branch of the hook is the composition of its three stages. -/
theorem hook_preserve_stages (orig : Size → FloatVal → Size) (g : Settings) (size : Size)
    (scale : FloatVal) (habs : g.useAbsoluteSize = true) (hpres : g.preserveAspectRatio = true) :
    ThumbnailHelpers_GetScaledThumbnailSize_Hook orig g size scale =
      if (heightStage g (FloatVal.mul (widthClampF g (orig size scale).Width)
          (FloatVal.div (orig size scale).Height (orig size scale).Width))).2 = true then
        ⟨(widthStage g (FloatVal.div (orig size scale).Height (orig size scale).Width)
            (FloatVal.div (heightStage g (FloatVal.mul (widthClampF g (orig size scale).Width)
              (FloatVal.div (orig size scale).Height (orig size scale).Width))).1
              (FloatVal.div (orig size scale).Height (orig size scale).Width))
            (heightStage g (FloatVal.mul (widthClampF g (orig size scale).Width)
              (FloatVal.div (orig size scale).Height (orig size scale).Width))).1).1,
          (widthStage g (FloatVal.div (orig size scale).Height (orig size scale).Width)
            (FloatVal.div (heightStage g (FloatVal.mul (widthClampF g (orig size scale).Width)
              (FloatVal.div (orig size scale).Height (orig size scale).Width))).1
              (FloatVal.div (orig size scale).Height (orig size scale).Width))
            (heightStage g (FloatVal.mul (widthClampF g (orig size scale).Width)
              (FloatVal.div (orig size scale).Height (orig size scale).Width))).1).2⟩
      else
        ⟨widthClampF g (orig size scale).Width,
          (heightStage g (FloatVal.mul (widthClampF g (orig size scale).Width)
            (FloatVal.div (orig size scale).Height (orig size scale).Width))).1⟩ := by
  unfold ThumbnailHelpers_GetScaledThumbnailSize_Hook
  rw [if_pos habs, if_pos hpres]
  rfl

/-- The width written in independent-axis mode is the clamped baseline width. -/
theorem hook_independent_width (orig : Size → FloatVal → Size) (g : Settings) (size : Size)
    (scale : FloatVal) (habs : g.useAbsoluteSize = true)
    (hind : g.preserveAspectRatio = false) :
    (ThumbnailHelpers_GetScaledThumbnailSize_Hook orig g size scale).Width
      = widthClampF g (orig size scale).Width := by
  unfold ThumbnailHelpers_GetScaledThumbnailSize_Hook
  rw [if_pos habs, hind]
  rfl

/-- The width after the recheck is the width clamp of the recomputed width. -/
theorem widthStage_fst (g : Settings) (ar t th : FloatVal) :
    (widthStage g ar t th).1 = widthClampF g t := by
  unfold widthStage widthClampF
  simp only
  split_ifs <;> simp_all

/-- After the recheck either the height is the width times the aspect ratio, or nothing was
changed. -/
theorem widthStage_cases (g : Settings) (ar t th : FloatVal) :
    (widthStage g ar t th).2 = FloatVal.mul (widthStage g ar t th).1 ar
      ∨ widthStage g ar t th = (t, th) := by
  unfold widthStage
  simp only
  split_ifs <;> simp

/-- When no height check fires the height is unchanged. -/
theorem heightStage_unfired (g : Settings) (t : FloatVal)
    (h : (heightStage g t).2 = false) : (heightStage g t).1 = t := by
  unfold heightStage at h ⊢
  simp only at h ⊢
  split_ifs at h ⊢
  all_goals simp_all

/-- The comparison of two finite values. -/
theorem lt_fin_fin (a b : ℚ) : FloatVal.lt (fin a) (fin b) = decide (a < b) := rfl

/-- With `0 < minWidth ≤ maxWidth`, both converting exactly, the width clamp of a value that is
not NaN is finite and lies in `[minWidth, maxWidth]`, and it leaves a value of that range
unchanged. -/
theorem widthClampF_mem (g : Settings) (x : FloatVal)
    (hmin : 0 < g.minWidth) (hle : g.minWidth ≤ g.maxWidth)
    (hrmin : FloatVal.ofInt g.minWidth = fin (g.minWidth : ℚ))
    (hrmax : FloatVal.ofInt g.maxWidth = fin (g.maxWidth : ℚ))
    (hx : x ≠ nan) :
    ∃ W : ℚ, widthClampF g x = fin W ∧ (g.minWidth : ℚ) ≤ W ∧ W ≤ (g.maxWidth : ℚ)
      ∧ ∀ w : ℚ, x = fin w → (g.minWidth : ℚ) ≤ w → w ≤ (g.maxWidth : ℚ) → W = w := by
  have hmax : 0 < g.maxWidth := lt_of_lt_of_le hmin hle
  have hminq : (0 : ℚ) < g.minWidth := by exact_mod_cast hmin
  have hleq : (g.minWidth : ℚ) ≤ g.maxWidth := by exact_mod_cast hle
  have hnl : ¬(g.maxWidth : ℚ) < g.minWidth := not_lt.mpr hleq
  unfold widthClampF
  rw [hrmin, hrmax]
  cases x with
  | nan => exact absurd rfl hx
  | fin w =>
    by_cases c1 : w < (g.minWidth : ℚ)
    · refine ⟨g.minWidth, ?_, le_refl _, hleq, ?_⟩
      · simp [FloatVal.lt, FloatVal.gt, hmin, hmax, c1, hnl]
      · intro v hv h1 _
        rw [FloatVal.fin.inj hv] at c1
        exact absurd c1 (not_lt.mpr h1)
    · by_cases c2 : (g.maxWidth : ℚ) < w
      · refine ⟨g.maxWidth, ?_, hleq, le_refl _, ?_⟩
        · simp [FloatVal.lt, FloatVal.gt, hmin, hmax, c1, c2]
        · intro v hv _ h2
          rw [FloatVal.fin.inj hv] at c2
          exact absurd c2 (not_lt.mpr h2)
      · refine ⟨w, ?_, not_lt.mp c1, not_lt.mp c2, ?_⟩
        · simp [FloatVal.lt, FloatVal.gt, hmin, hmax, c1, c2]
        · intro v hv _ _
          exact FloatVal.fin.inj hv
  | nzero =>
    refine ⟨g.minWidth, ?_, le_refl _, hleq, ?_⟩
    · simp [FloatVal.lt, FloatVal.gt, hmin, hmax, hminq, hnl]
    · intro v hv; exact absurd hv (by simp)
  | pinf =>
    refine ⟨g.maxWidth, ?_, hleq, le_refl _, ?_⟩
    · simp [FloatVal.lt, FloatVal.gt, hmax]
    · intro v hv; exact absurd hv (by simp)
  | ninf =>
    refine ⟨g.minWidth, ?_, le_refl _, hleq, ?_⟩
    · simp [FloatVal.lt, FloatVal.gt, hmin, hmax, hnl]
    · intro v hv; exact absurd hv (by simp)

/-- With `0 < maxWidth < minWidth`, both converting exactly, the width clamp of a value that is
not NaN is `maxWidth`. -/
theorem widthClampF_conflict (g : Settings) (x : FloatVal)
    (hmax : 0 < g.maxWidth) (hlt : g.maxWidth < g.minWidth)
    (hrmin : FloatVal.ofInt g.minWidth = fin (g.minWidth : ℚ))
    (hrmax : FloatVal.ofInt g.maxWidth = fin (g.maxWidth : ℚ))
    (hx : x ≠ nan) :
    widthClampF g x = fin (g.maxWidth : ℚ) := by
  have hmin : 0 < g.minWidth := lt_trans hmax hlt
  have hminq : (0 : ℚ) < g.minWidth := by exact_mod_cast hmin
  have hltq : (g.maxWidth : ℚ) < g.minWidth := by exact_mod_cast hlt
  unfold widthClampF
  rw [hrmin, hrmax]
  cases x with
  | nan => exact absurd rfl hx
  | fin w =>
    by_cases c1 : w < (g.minWidth : ℚ)
    · simp [FloatVal.lt, FloatVal.gt, hmin, hmax, c1, hltq]
    · have c2 : (g.maxWidth : ℚ) < w := lt_of_lt_of_le hltq (not_lt.mp c1)
      simp [FloatVal.lt, FloatVal.gt, hmin, hmax, c1, c2]
  | nzero => simp [FloatVal.lt, FloatVal.gt, hmin, hmax, hminq, hltq]
  | pinf => simp [FloatVal.lt, FloatVal.gt, hmax]
  | ninf => simp [FloatVal.lt, FloatVal.gt, hmin, hmax, hltq]

/-- NaN is not below any value. -/
theorem lt_nan_left (y : FloatVal) : FloatVal.lt nan y = false := by
  cases y <;> rfl

/-- No value is below NaN. -/
theorem lt_nan_right (x : FloatVal) : FloatVal.lt x nan = false := by
  cases x <;> rfl

/-- The width clamp leaves NaN unchanged. -/
theorem widthClampF_nan (g : Settings) : widthClampF g nan = nan := by
  simp [widthClampF, FloatVal.gt, lt_nan_left, lt_nan_right]

/-- No height check fires when both conditions of the source fail. -/
theorem heightStage_of_not (g : Settings) (t : FloatVal)
    (h1 : ¬(0 < g.minHeight ∧ FloatVal.lt t (FloatVal.ofInt g.minHeight) = true))
    (h2 : ¬(0 < g.maxHeight ∧ FloatVal.gt t (FloatVal.ofInt g.maxHeight) = true)) :
    heightStage g t = (t, false) := by
  unfold heightStage
  simp only [gt_iff_lt, Bool.and_eq_true, decide_eq_true_eq, if_neg h1, if_neg h2]

/-- A height check fires when the height violates a bound in force. -/
theorem heightStage_of_fires (g : Settings) (t : FloatVal)
    (h : (0 < g.minHeight ∧ FloatVal.lt t (FloatVal.ofInt g.minHeight) = true)
      ∨ (0 < g.maxHeight ∧ FloatVal.gt t (FloatVal.ofInt g.maxHeight) = true)) :
    (heightStage g t).2 = true := by
  unfold heightStage
  simp only [gt_iff_lt, Bool.and_eq_true, decide_eq_true_eq]
  by_cases c1 : 0 < g.minHeight ∧ FloatVal.lt t (FloatVal.ofInt g.minHeight) = true
  · rw [if_pos c1]
    split_ifs <;> rfl
  · rw [if_neg c1]
    have c2 := h.resolve_left c1
    rw [if_pos c2]

/-- The width clamp does nothing when both conditions of the source fail. -/
theorem widthClampF_of_not (g : Settings) (t : FloatVal)
    (h1 : ¬(0 < g.minWidth ∧ FloatVal.lt t (FloatVal.ofInt g.minWidth) = true))
    (h2 : ¬(0 < g.maxWidth ∧ FloatVal.gt t (FloatVal.ofInt g.maxWidth) = true)) :
    widthClampF g t = t := by
  unfold widthClampF
  simp only [gt_iff_lt, Bool.and_eq_true, decide_eq_true_eq, if_neg h1, if_neg h2]

/-- The recheck of the width does nothing when both conditions of the source fail. -/
theorem widthStage_of_not (g : Settings) (ar t th : FloatVal)
    (h1 : ¬(0 < g.minWidth ∧ FloatVal.lt t (FloatVal.ofInt g.minWidth) = true))
    (h2 : ¬(0 < g.maxWidth ∧ FloatVal.gt t (FloatVal.ofInt g.maxWidth) = true)) :
    widthStage g ar t th = (t, th) := by
  unfold widthStage
  simp only [gt_iff_lt, Bool.and_eq_true, decide_eq_true_eq, if_neg h1, if_neg h2]

/-- When a height check fires, the height is the conversion of a positive bound, a positive
finite value. -/
theorem heightStage_fired_pos (g : Settings) (t : FloatVal)
    (h : (heightStage g t).2 = true) :
    ∃ y : ℚ, 0 < y ∧ (heightStage g t).1 = fin y := by
  unfold heightStage at h ⊢
  simp only [gt_iff_lt, Bool.and_eq_true, decide_eq_true_eq] at h ⊢
  by_cases c2 : 0 < g.maxHeight ∧ FloatVal.gt
      (if 0 < g.minHeight ∧ FloatVal.lt t (FloatVal.ofInt g.minHeight) = true then
        (FloatVal.ofInt g.minHeight, true) else (t, false)).1
      (FloatVal.ofInt g.maxHeight) = true
  · rw [if_pos c2]
    exact ofInt_pos _ c2.1 g.maxHeight_int
  · rw [if_neg c2] at h ⊢
    by_cases c1 : 0 < g.minHeight ∧ FloatVal.lt t (FloatVal.ofInt g.minHeight) = true
    · rw [if_pos c1]
      exact ofInt_pos _ c1.1 g.minHeight_int
    · rw [if_neg c1] at h
      exact absurd h (by simp)

/-- The quotient of a non-zero finite value by a value that is not NaN is not NaN. -/
theorem div_fin_ne_nan (y : ℚ) (hy : y ≠ 0) (x : FloatVal) (hx : x ≠ nan) :
    FloatVal.div (fin y) x ≠ nan := by
  cases x with
  | nan => exact absurd rfl hx
  | fin b =>
    unfold FloatVal.div
    by_cases hb : b = 0
    · simp [hb, hy, FloatVal.inf]
      split_ifs <;> simp
    · simp only [if_neg hb, if_neg hy]
      exact roundToFloat_ne_nan _
  | nzero => simp [FloatVal.div, hy, FloatVal.inf]; split_ifs <;> simp
  | pinf => simp [FloatVal.div, FloatVal.zero]; split_ifs <;> simp
  | ninf => simp [FloatVal.div, FloatVal.zero]; split_ifs <;> simp

/-- The quotient of two finite values with a non-zero divisor is not NaN. -/
theorem div_fin_fin_ne_nan (a b : ℚ) (hb : b ≠ 0) : FloatVal.div (fin a) (fin b) ≠ nan := by
  unfold FloatVal.div
  simp only [if_neg hb]
  by_cases ha : a = 0
  · simp [ha, FloatVal.zero]; split_ifs <;> simp
  · rw [if_neg ha]
    exact roundToFloat_ne_nan _

/-- A division by a zero never gives a finite value. -/
theorem div_zero_cases (x z : FloatVal) (hz : z = fin 0 ∨ z = nzero) :
    FloatVal.div x z = nan ∨ FloatVal.div x z = pinf ∨ FloatVal.div x z = ninf := by
  rcases hz with hz | hz <;> subst hz
  · cases x with
    | fin a =>
      by_cases h0 : a = 0
      · simp [FloatVal.div, h0]
      · by_cases hp : a < 0 <;> simp [FloatVal.div, FloatVal.inf, h0, hp]
    | nzero => simp [FloatVal.div, FloatVal.zero]
    | pinf => simp [FloatVal.div, FloatVal.inf]
    | ninf => simp [FloatVal.div, FloatVal.inf]
    | nan => simp [FloatVal.div]
  · cases x with
    | fin a =>
      by_cases h0 : a = 0
      · simp [FloatVal.div, h0]
      · by_cases hp : a < 0 <;> simp [FloatVal.div, FloatVal.inf, h0, hp]
    | nzero => simp [FloatVal.div]
    | pinf => simp [FloatVal.div]
    | ninf => simp [FloatVal.div]
    | nan => simp [FloatVal.div]

/-- No height check fires on NaN. -/
theorem heightStage_nan (g : Settings) : heightStage g nan = (nan, false) := by
  apply heightStage_of_not <;> simp [FloatVal.gt, lt_nan_left, lt_nan_right]

/-- A positive finite value times an infinity is that infinity. -/
theorem mul_pos_inf (m : ℚ) (hm : 0 < m) (ar : FloatVal) (har : ar = pinf ∨ ar = ninf) :
    FloatVal.mul (fin m) ar = ar := by
  rcases har with h | h <;> subst h <;>
    simp [FloatVal.mul, FloatVal.inf, ne_of_gt hm, not_lt.mpr hm.le]

/-- A zero times an infinity or NaN is NaN. -/
theorem mul_zero_special (z ar : FloatVal) (hz : z = fin 0 ∨ z = nzero)
    (har : ar = nan ∨ ar = pinf ∨ ar = ninf) :
    FloatVal.mul z ar = nan := by
  rcases hz with hz | hz <;> subst hz <;> rcases har with h | h | h <;> subst h <;>
    simp [FloatVal.mul]

/-- A positive finite value divided by an infinity is a zero. -/
theorem div_pos_inf (y : ℚ) (hy : 0 < y) (ar : FloatVal) (har : ar = pinf ∨ ar = ninf) :
    FloatVal.div (fin y) ar = fin 0 ∨ FloatVal.div (fin y) ar = nzero := by
  rcases har with h | h <;> subst h <;>
    simp [FloatVal.div, FloatVal.zero, not_lt.mpr hy.le]

/-- The special values are not finite. -/
theorem isFinite_special (ar : FloatVal) (har : ar = nan ∨ ar = pinf ∨ ar = ninf) :
    ar.isFinite = false := by
  rcases har with h | h | h <;> subst h <;> rfl

/-- The width clamp of a zero, for `minWidth > 0`, is a positive finite value, the same for
both zeros. -/
theorem widthClampF_zero_pos (g : Settings) (z : FloatVal) (hz : z = fin 0 ∨ z = nzero)
    (hmin : 0 < g.minWidth) :
    ∃ v : ℚ, 0 < v ∧ widthClampF g z = fin v ∧ widthClampF g (fin 0) = fin v := by
  obtain ⟨a, ha, hA⟩ := ofInt_pos _ hmin g.minWidth_int
  unfold widthClampF
  by_cases c : 0 < g.maxWidth
  · obtain ⟨b, hb, hB⟩ := ofInt_pos _ c g.maxWidth_int
    rw [hA, hB]
    by_cases c2 : b < a
    · refine ⟨b, hb, ?_, ?_⟩
      · rcases hz with h | h <;> subst h <;>
          simp [FloatVal.lt, FloatVal.gt, hmin, c, ha, c2]
      · simp [FloatVal.lt, FloatVal.gt, hmin, c, ha, c2]
    · refine ⟨a, ha, ?_, ?_⟩
      · rcases hz with h | h <;> subst h <;>
          simp [FloatVal.lt, FloatVal.gt, hmin, c, ha, c2]
      · simp [FloatVal.lt, FloatVal.gt, hmin, c, ha, c2]
  · rw [hA]
    refine ⟨a, ha, ?_, ?_⟩
    · rcases hz with h | h <;> subst h <;>
        simp [FloatVal.lt, FloatVal.gt, hmin, c, ha]
    · simp [FloatVal.lt, FloatVal.gt, hmin, c, ha]

/-- The width clamp of a zero, for `minWidth ≤ 0`, is that zero. -/
theorem widthClampF_zero_of_not (g : Settings) (z : FloatVal) (hz : z = fin 0 ∨ z = nzero)
    (hmin : ¬0 < g.minWidth) :
    widthClampF g z = z := by
  apply widthClampF_of_not
  · exact fun hc => hmin hc.1
  · intro hc
    obtain ⟨b, hb, hB⟩ := ofInt_pos _ hc.1 g.maxWidth_int
    have := hc.2
    rw [hB] at this
    rcases hz with hz | hz <;> subst hz <;>
      simp [FloatVal.gt, FloatVal.lt, not_lt.mpr hb.le] at this

/-- The recheck of the width on a recomputed width zero, for an infinite aspect ratio and
`minWidth > 0`: the width is the clamp of zero and the height is the aspect ratio. -/
theorem widthStage_zero (g : Settings) (ar z th : FloatVal) (har : ar = pinf ∨ ar = ninf)
    (hz : z = fin 0 ∨ z = nzero) (hmin : 0 < g.minWidth) :
    widthStage g ar z th = (widthClampF g (fin 0), ar) := by
  obtain ⟨v, hv, h1, h2⟩ := widthClampF_zero_pos g z hz hmin
  have hfst := widthStage_fst g ar z th
  rw [h1] at hfst
  rcases widthStage_cases g ar z th with h | h
  · rw [hfst, mul_pos_inf v hv ar har] at h
    rw [h2]
    exact Prod.ext hfst h
  · rw [h] at hfst
    simp only at hfst
    rcases hz with h0 | h0
    · -- the lower clamp fires on the zero, so the recheck did change the width
      subst h0
      have hne : widthStage g ar (fin 0) th ≠ (fin 0, th) := by
        intro hc
        have := widthStage_fst g ar (fin 0) th
        rw [hc, h1] at this
        exact absurd (FloatVal.fin.inj this) (ne_of_lt hv)
      exact absurd h hne
    · subst h0
      exact absurd hfst (by simp)

/-- The width clamp reads only the two width bounds. -/
theorem widthClampF_independent (g : Settings) (t : FloatVal) :
    widthClampF { g with preserveAspectRatio := false } t = widthClampF g t := rfl

/-! ## Auxiliary lemmas: evaluation on concrete values -/

/-- Rounding of a positive rational whose binade is given. -/
theorem roundToFloat_eval_pos (q : ℚ) (e : ℤ) (hq : 0 < q) (h1 : (2 : ℚ) ^ e ≤ q)
    (h2 : q < (2 : ℚ) ^ (e + 1)) : roundToFloat q = roundAt e q := by
  have hn : ¬q < 0 := not_lt.mpr hq.le
  exact roundToFloat_eval q e (ne_of_gt hq) (by rwa [if_neg hn]) (by rwa [if_neg hn])

/-- The product of two positive finite values is the rounded product. -/
theorem mul_fin_pos (a b : ℚ) (ha : 0 < a) (hb : 0 < b) :
    FloatVal.mul (fin a) (fin b) = roundToFloat (a * b) := by
  simp only [FloatVal.mul, if_neg (ne_of_gt (mul_pos ha hb))]

/-- The quotient of two positive finite values is the rounded quotient. -/
theorem div_fin_pos (a b : ℚ) (ha : 0 < a) (hb : 0 < b) :
    FloatVal.div (fin a) (fin b) = roundToFloat (a / b) := by
  simp only [FloatVal.div, if_neg (ne_of_gt hb), if_neg (ne_of_gt ha)]

/-- The conversions of the default bounds are exact. -/
theorem ofInt_default_bounds :
    FloatVal.ofInt 200 = fin 200 ∧ FloatVal.ofInt 400 = fin 400
      ∧ FloatVal.ofInt 150 = fin 150 ∧ FloatVal.ofInt 300 = fin 300 := by
  refine ⟨?_, ?_, ?_, ?_⟩
  · simpa using ofInt_exact 200 (by norm_num) (by norm_num)
  · simpa using ofInt_exact 400 (by norm_num) (by norm_num)
  · simpa using ofInt_exact 150 (by norm_num) (by norm_num)
  · simpa using ofInt_exact 300 (by norm_num) (by norm_num)

/-- The `int` `2^24 + 1` converts to the `float` `2^24`: the tie goes to the even mantissa. -/
theorem ofInt_huge : FloatVal.ofInt 16777217 = fin 16777216 := by
  unfold FloatVal.ofInt
  rw [roundToFloat_eval_pos _ 24 (by norm_num) (by norm_num) (by norm_num)]
  norm_num [roundAt]

/-- The `int` `2^24 + 2` is a `float`. -/
theorem ofInt_huge_even : FloatVal.ofInt 16777218 = fin 16777218 := by
  unfold FloatVal.ofInt
  rw [roundToFloat_eval_pos _ 24 (by norm_num) (by norm_num) (by norm_num)]
  norm_num [roundAt]

/-- An integer from 1 to `2^24` rounds to itself. -/
theorem roundToFloat_int (m : Int) (h0 : 0 < m) (hm : m ≤ 16777216) :
    roundToFloat (m : ℚ) = fin (m : ℚ) := ofInt_exact m h0 hm

/-- The aspect ratio of the baseline `(3, 1)`. -/
theorem div_one_three : FloatVal.div (fin 1) (fin 3) = fin (11184811 / 33554432) := by
  rw [div_fin_pos _ _ (by norm_num) (by norm_num),
    roundToFloat_eval_pos _ (-2) (by norm_num) (by norm_num) (by norm_num)]
  norm_num [roundAt]

/-- The aspect ratio of the baseline `(500, 600)`. -/
theorem div_six_five : FloatVal.div (fin 600) (fin 500) = fin (5033165 / 4194304) := by
  rw [div_fin_pos _ _ (by norm_num) (by norm_num),
    roundToFloat_eval_pos _ 0 (by norm_num) (by norm_num) (by norm_num)]
  norm_num [roundAt]

/-- The aspect ratio of the baseline `(200, 209)`. -/
theorem div_209_200 : FloatVal.div (fin 209) (fin 200) = fin (8766095 / 8388608) := by
  rw [div_fin_pos _ _ (by norm_num) (by norm_num),
    roundToFloat_eval_pos _ 0 (by norm_num) (by norm_num) (by norm_num)]
  norm_num [roundAt]

/-- The aspect ratio one half of the baselines `(300, 150)` and `(100, 50)`. -/
theorem div_half (a b : ℚ) (ha : 0 < a) (hb : 0 < b) (hab : a / b = 1 / 2) :
    FloatVal.div (fin a) (fin b) = fin (1 / 2) := by
  rw [div_fin_pos _ _ ha hb, hab,
    roundToFloat_eval_pos _ (-1) (by norm_num) (by norm_num) (by norm_num)]
  norm_num [roundAt]

/-- The product of two positive finite values whose exact product is an integer up to `2^24`
is exact. -/
theorem mul_fin_int (a b : ℚ) (m : Int) (ha : 0 < a) (hb : 0 < b) (hab : a * b = (m : ℚ))
    (h0 : 0 < m) (hm : m ≤ 16777216) : FloatVal.mul (fin a) (fin b) = fin (m : ℚ) := by
  rw [mul_fin_pos _ _ ha hb, hab, roundToFloat_int m h0 hm]

/-- The quotient of two positive finite values whose exact quotient is an integer up to `2^24`
is exact. -/
theorem div_fin_int (a b : ℚ) (m : Int) (ha : 0 < a) (hb : 0 < b) (hab : a / b = (m : ℚ))
    (h0 : 0 < m) (hm : m ≤ 16777216) : FloatVal.div (fin a) (fin b) = fin (m : ℚ) := by
  rw [div_fin_pos _ _ ha hb, hab, roundToFloat_int m h0 hm]

/-- With both width bounds `2^24 + 1`, the width clamp of a finite value below `2^24` is
`2^24`. -/
theorem widthClampF_huge (x : FloatVal) (q : ℚ) (hx : x = fin q) (hq : q < 16777216) :
    widthClampF hugeSettings x = fin 16777216 := by
  have hm : hugeSettings.minWidth = 16777217 := rfl
  have hM : hugeSettings.maxWidth = 16777217 := rfl
  subst hx
  unfold widthClampF
  rw [hm, hM, ofInt_huge]
  norm_num [FloatVal.lt, FloatVal.gt, hq]

/-- Evaluation of the hook on the baseline `(3, 1)` with the default bounds and
preserveAspectRatio enabled: the width is clamped to 200, the height 66.67 is raised to 150,
the width recomputed from it is 450 and is clamped to 400, and the height becomes
`400 * fl(1/3)` rounded. -/
theorem hook_three_one :
    ThumbnailHelpers_GetScaledThumbnailSize_Hook sampleOriginal aspectSettings
        ⟨fin 3, fin 1⟩ (fin 1) = ⟨fin 400, fin (4369067 / 32768)⟩ := by
  obtain ⟨h200, h400, h150, h300⟩ := ofInt_default_bounds
  have hT : FloatVal.mul (fin 200) (fin (11184811 / 33554432)) = fin (4369067 / 65536) := by
    rw [mul_fin_pos _ _ (by norm_num) (by norm_num),
      roundToFloat_eval_pos _ 6 (by norm_num) (by norm_num) (by norm_num)]
    norm_num [roundAt]
  have hD : FloatVal.div (fin 150) (fin (11184811 / 33554432)) = fin 450 := by
    rw [div_fin_pos _ _ (by norm_num) (by norm_num),
      roundToFloat_eval_pos _ 8 (by norm_num) (by norm_num) (by norm_num)]
    norm_num [roundAt]
  have hM : FloatVal.mul (fin 400) (fin (11184811 / 33554432)) = fin (4369067 / 32768) := by
    rw [mul_fin_pos _ _ (by norm_num) (by norm_num),
      roundToFloat_eval_pos _ 7 (by norm_num) (by norm_num) (by norm_num)]
    norm_num [roundAt]
  have hW : widthClampF aspectSettings (fin 3) = fin 200 := by
    norm_num [widthClampF, aspectSettings, defaultSettings, h200, h400, FloatVal.lt,
      FloatVal.gt]
  have hS : heightStage aspectSettings (fin (4369067 / 65536)) = (fin 150, true) := by
    norm_num [heightStage, aspectSettings, defaultSettings, h150, h300, FloatVal.lt,
      FloatVal.gt]
  have hR : widthStage aspectSettings (fin (11184811 / 33554432)) (fin 450) (fin 150)
      = (fin 400, fin (4369067 / 32768)) := by
    norm_num [widthStage, aspectSettings, defaultSettings, h200, h400, hM, FloatVal.lt,
      FloatVal.gt]
  rw [hook_preserve_stages _ _ _ _ rfl rfl]
  simp only [sampleOriginal, div_one_three, hW, hT, hS, hD, hR, if_true]

/-- The steps of scenario 2, the baseline `(100, 50)` with height bounds `(150, 300)`: the aspect
ratio is one half, the height `200 * (1/2) = 100` is raised to 150, and the width recomputed
from it is 300; all of them are exact. -/
theorem scenario_two_steps (g : Settings) (hminH : g.minHeight = 150)
    (hmaxH : g.maxHeight = 300) :
    FloatVal.div (fin 50) (fin 100) = fin (1 / 2)
      ∧ FloatVal.mul (fin 200) (fin (1 / 2)) = fin 100
      ∧ FloatVal.mul (fin 100) (fin (1 / 2)) = fin 50
      ∧ heightStage g (fin 100) = (fin 150, true)
      ∧ heightStage g (fin 50) = (fin 150, true)
      ∧ FloatVal.div (fin 150) (fin (1 / 2)) = fin 300 := by
  obtain ⟨_, _, h150, h300⟩ := ofInt_default_bounds
  refine ⟨div_half 50 100 (by norm_num) (by norm_num) (by norm_num), ?_, ?_, ?_, ?_, ?_⟩
  · simpa using mul_fin_int 200 (1 / 2) 100 (by norm_num) (by norm_num) (by norm_num)
      (by norm_num) (by norm_num)
  · simpa using mul_fin_int 100 (1 / 2) 50 (by norm_num) (by norm_num) (by norm_num)
      (by norm_num) (by norm_num)
  · unfold heightStage
    rw [hminH, hmaxH, h150, h300]
    norm_num [FloatVal.lt, FloatVal.gt]
  · unfold heightStage
    rw [hminH, hmaxH, h150, h300]
    norm_num [FloatVal.lt, FloatVal.gt]
  · simpa using div_fin_int 150 (1 / 2) 300 (by norm_num) (by norm_num) (by norm_num)
      (by norm_num) (by norm_num)

/-- The steps on the baseline `(500, 600)` with height bounds `(150, 300)`: the heights
`400 * fl(6/5)` and `500 * fl(6/5)` are above maxHeight and are lowered to 300, and the width
recomputed from 300 is `249.99998...`. -/
theorem five_six_steps (g : Settings) (hminH : g.minHeight = 150)
    (hmaxH : g.maxHeight = 300) :
    FloatVal.mul (fin 400) (fin (5033165 / 4194304)) = fin (15728641 / 32768)
      ∧ FloatVal.mul (fin 500) (fin (5033165 / 4194304)) = fin 600
      ∧ heightStage g (fin (15728641 / 32768)) = (fin 300, true)
      ∧ heightStage g (fin 600) = (fin 300, true)
      ∧ FloatVal.div (fin 300) (fin (5033165 / 4194304)) = fin (16383999 / 65536) := by
  obtain ⟨_, _, h150, h300⟩ := ofInt_default_bounds
  refine ⟨?_, ?_, ?_, ?_, ?_⟩
  · rw [mul_fin_pos _ _ (by norm_num) (by norm_num),
      roundToFloat_eval_pos _ 8 (by norm_num) (by norm_num) (by norm_num)]
    norm_num [roundAt]
  · rw [mul_fin_pos _ _ (by norm_num) (by norm_num),
      roundToFloat_eval_pos _ 9 (by norm_num) (by norm_num) (by norm_num)]
    norm_num [roundAt]
  · unfold heightStage
    rw [hminH, hmaxH, h150, h300]
    norm_num [FloatVal.lt, FloatVal.gt]
  · unfold heightStage
    rw [hminH, hmaxH, h150, h300]
    norm_num [FloatVal.lt, FloatVal.gt]
  · rw [div_fin_pos _ _ (by norm_num) (by norm_num),
      roundToFloat_eval_pos _ 7 (by norm_num) (by norm_num) (by norm_num)]
    norm_num [roundAt]

/-- The width clamp with the default width bounds. -/
theorem widthClampF_default (g : Settings) (hminW : g.minWidth = 200)
    (hmaxW : g.maxWidth = 400) (q : ℚ) :
    widthClampF g (fin q) = fin (if q < 200 then 200 else if 400 < q then 400 else q) := by
  obtain ⟨h200, h400, _, _⟩ := ofInt_default_bounds
  unfold widthClampF
  rw [hminW, hmaxW, h200, h400]
  by_cases c1 : q < 200
  · norm_num [FloatVal.lt, FloatVal.gt, c1]
  · by_cases c2 : 400 < q
    · norm_num [FloatVal.lt, FloatVal.gt, c1, c2]
    · norm_num [FloatVal.lt, FloatVal.gt, c1, c2]

/-- The recheck of the width with the default width bounds changes nothing for a width within
the bounds. -/
theorem widthStage_default (g : Settings) (hminW : g.minWidth = 200)
    (hmaxW : g.maxWidth = 400) (ar th : FloatVal) (q : ℚ) (h1 : 200 ≤ q) (h2 : q ≤ 400) :
    widthStage g ar (fin q) th = (fin q, th) := by
  obtain ⟨h200, h400, _, _⟩ := ofInt_default_bounds
  apply widthStage_of_not
  · rw [hminW, h200]
    simp [FloatVal.lt, not_lt.mpr h1]
  · rw [hmaxW, h400]
    simp [FloatVal.lt, FloatVal.gt, not_lt.mpr h2]

/-! ## Auxiliary lemmas: module acquisition -/

/-- The installation only changes the counter of its calls. -/
theorem HookTaskbarViewDllSymbols_state (e : Env) (s : ModState) :
    (HookTaskbarViewDllSymbols e s).2 = { s with hookCalls := s.hookCalls + 1 } := by
  unfold HookTaskbarViewDllSymbols
  cases e.hookSymbolsOk <;> rfl

/-- Winning the exchange from a state with the flag false keeps the invariant and sets the
flag. -/
theorem acquire_step (e : Env) (s : ModState) (hs : acquired s)
    (hf : s.g_taskbarViewDllLoaded = false) :
    acquired (if (HookTaskbarViewDllSymbols e (exchange s true).2).1 = true then
        Wh_ApplyHookOperations (HookTaskbarViewDllSymbols e (exchange s true).2).2
      else (HookTaskbarViewDllSymbols e (exchange s true).2).2)
    ∧ (if (HookTaskbarViewDllSymbols e (exchange s true).2).1 = true then
        Wh_ApplyHookOperations (HookTaskbarViewDllSymbols e (exchange s true).2).2
      else (HookTaskbarViewDllSymbols e (exchange s true).2).2).g_taskbarViewDllLoaded
        = true := by
  have h0 : s.hookCalls = 0 := hs.2 hf
  unfold acquired
  split_ifs <;>
    simp [HookTaskbarViewDllSymbols_state, Wh_ApplyHookOperations, exchange, h0]

/-- Every event keeps the invariant and keeps a true flag true. -/
theorem step_spec (s : ModState) (ev : Event) (hs : acquired s) :
    acquired (step s ev)
      ∧ (s.g_taskbarViewDllLoaded = true → (step s ev).g_taskbarViewDllLoaded = true) := by
  cases hfl : s.g_taskbarViewDllLoaded with
  | true =>
    have e1 : step s ev = s := by
      cases ev <;> simp [step, HandleLoadedModuleIfTaskbarView, Wh_ModAfterInit, hfl]
    rw [e1]
    exact ⟨hs, fun _ => hfl⟩
  | false =>
    refine ⟨?_, fun hc => absurd hc (by simp)⟩
    cases ev with
    | load e module =>
      by_cases hm : GetTaskbarViewModuleHandle e = module
      · have e1 : step s (Event.load e module)
            = (if (HookTaskbarViewDllSymbols e (exchange s true).2).1 = true then
                Wh_ApplyHookOperations (HookTaskbarViewDllSymbols e (exchange s true).2).2
              else (HookTaskbarViewDllSymbols e (exchange s true).2).2) := by
          simp [step, HandleLoadedModuleIfTaskbarView, hfl, hm, exchange]
        rw [e1]
        exact (acquire_step e s hs hfl).1
      · have e1 : step s (Event.load e module) = s := by
          simp [step, HandleLoadedModuleIfTaskbarView, hfl, hm]
        rw [e1]
        exact hs
    | afterInit e =>
      by_cases hm : GetTaskbarViewModuleHandle e = 0
      · have e1 : step s (Event.afterInit e) = s := by
          simp [step, Wh_ModAfterInit, hfl, hm]
        rw [e1]
        exact hs
      · have e1 : step s (Event.afterInit e)
            = (if (HookTaskbarViewDllSymbols e (exchange s true).2).1 = true then
                Wh_ApplyHookOperations (HookTaskbarViewDllSymbols e (exchange s true).2).2
              else (HookTaskbarViewDllSymbols e (exchange s true).2).2) := by
          simp [step, Wh_ModAfterInit, hfl, hm, exchange]
        rw [e1]
        exact (acquire_step e s hs hfl).1

/-- Every sequence of events keeps the invariant and keeps a true flag true. -/
theorem foldl_step_spec (evs : List Event) (s : ModState) (hs : acquired s) :
    acquired (evs.foldl step s)
      ∧ (s.g_taskbarViewDllLoaded = true → (evs.foldl step s).g_taskbarViewDllLoaded = true) := by
  induction evs generalizing s with
  | nil => exact ⟨hs, fun h => h⟩
  | cons ev rest ih =>
    have h1 := step_spec s ev hs
    have h2 := ih (step s ev) h1.1
    exact ⟨h2.1, fun h => h2.2 (h1.2 h)⟩

/-- The invariant holds after `Wh_ModInit`. -/
theorem Wh_ModInit_acquired (e0 : Env) : acquired (Wh_ModInit e0 initialState).2 := by
  unfold Wh_ModInit acquired
  by_cases hm : GetTaskbarViewModuleHandle e0 = 0
  · simp [hm, initialState]
  · cases hok : e0.hookSymbolsOk <;>
      simp [hm, initialState, HookTaskbarViewDllSymbols, hok]

/-! ## Results -/

/-! ### Width bounds in independent-axis mode -/

/-- Counterexample to C1 as stated. With `minWidth = maxWidth = 16777217` and the baseline
`(100, 100)` the width written in independent-axis mode is 16777216, below minWidth: the
conversion of the bound to `float` rounds it. And a baseline whose width is NaN is written back
unclamped under the default bounds. -/
theorem independent_width_counterexample :
    (0 < hugeSettings.minWidth ∧ hugeSettings.minWidth ≤ hugeSettings.maxWidth)
      ∧ (ThumbnailHelpers_GetScaledThumbnailSize_Hook sampleOriginal hugeSettings
          ⟨fin 100, fin 100⟩ (fin 1)).Width = fin 16777216
      ∧ (16777216 : ℚ) < (hugeSettings.minWidth : ℚ)
      ∧ (ThumbnailHelpers_GetScaledThumbnailSize_Hook sampleOriginal defaultSettings
          ⟨nan, fin 100⟩ (fin 1)).Width = nan := by
  refine ⟨⟨by norm_num [hugeSettings], by norm_num [hugeSettings]⟩, ?_,
    by norm_num [hugeSettings], ?_⟩
  · rw [hook_independent_width _ _ _ _ rfl rfl]
    exact widthClampF_huge (fin 100) 100 rfl (by norm_num)
  · rw [hook_independent_width _ _ _ _ rfl rfl]
    exact widthClampF_nan defaultSettings

/-- Claim C1, as amended: in absolute-size mode with preserveAspectRatio disabled, for every
config with `0 < minWidth ≤ maxWidth` whose two width bounds convert to `float` exactly (as every
bound up to `2^24` does, see `ofInt_exact`) and every baseline whose width is not NaN, the width
written by the hook is finite and lies in `[minWidth, maxWidth]`, and it equals the baseline
width when that already lies in the range; the baseline height and the height bounds are
arbitrary. -/
theorem independent_width_within_bounds (orig : Size → FloatVal → Size) (g : Settings)
    (size : Size) (scale : FloatVal)
    (habs : g.useAbsoluteSize = true) (hind : g.preserveAspectRatio = false)
    (hmin : 0 < g.minWidth) (hle : g.minWidth ≤ g.maxWidth)
    (hrmin : FloatVal.ofInt g.minWidth = fin (g.minWidth : ℚ))
    (hrmax : FloatVal.ofInt g.maxWidth = fin (g.maxWidth : ℚ))
    (hnan : (orig size scale).Width ≠ nan) :
    ∃ W : ℚ, (ThumbnailHelpers_GetScaledThumbnailSize_Hook orig g size scale).Width = fin W
      ∧ (g.minWidth : ℚ) ≤ W ∧ W ≤ (g.maxWidth : ℚ)
      ∧ ∀ w : ℚ, (orig size scale).Width = fin w → (g.minWidth : ℚ) ≤ w → w ≤ (g.maxWidth : ℚ)
          → W = w := by
  rw [hook_independent_width orig g size scale habs hind]
  exact widthClampF_mem g _ hmin hle hrmin hrmax hnan

/-- Instance of the amended C1 (scenario 3): baseline `(100, 500)` in independent-axis mode with
the default bounds, which convert exactly. -/
theorem independent_width_within_bounds_witness :
    (0 < defaultSettings.minWidth ∧ defaultSettings.minWidth ≤ defaultSettings.maxWidth)
      ∧ ∃ W : ℚ, (ThumbnailHelpers_GetScaledThumbnailSize_Hook sampleOriginal defaultSettings
            ⟨fin 100, fin 500⟩ (fin 1)).Width = fin W
          ∧ (defaultSettings.minWidth : ℚ) ≤ W ∧ W ≤ (defaultSettings.maxWidth : ℚ)
          ∧ ∀ w : ℚ, (sampleOriginal ⟨fin 100, fin 500⟩ (fin 1)).Width = fin w →
              (defaultSettings.minWidth : ℚ) ≤ w → w ≤ (defaultSettings.maxWidth : ℚ) → W = w :=
  ⟨⟨by decide, by decide⟩,
    independent_width_within_bounds sampleOriginal defaultSettings ⟨fin 100, fin 500⟩ (fin 1)
      rfl rfl (by decide) (by decide) (ofInt_exact 200 (by decide) (by decide))
      (ofInt_exact 400 (by decide) (by decide)) (by simp [sampleOriginal])⟩

/-! ### The aspect ratio is preserved -/

/-- Counterexample to C2 as stated: with the default bounds the baseline `(3, 1)` gives
`(400, 133.33334...)`, and `H * w = W * h` fails: the height is `400 * fl(1/3)` rounded to
`float`. -/
theorem aspect_ratio_counterexample :
    ThumbnailHelpers_GetScaledThumbnailSize_Hook sampleOriginal aspectSettings
        ⟨fin 3, fin 1⟩ (fin 1) = ⟨fin 400, fin (4369067 / 32768)⟩
      ∧ (4369067 / 32768 : ℚ) * 3 ≠ 400 * 1 :=
  ⟨hook_three_one, by norm_num⟩

/-- Claim C2, as amended: in absolute-size mode with preserveAspectRatio enabled, for every
config and every baseline `(w, h)`, the aspect ratio is maintained up to the rounding of the
`float` operations: with `ar = h / w` computed in `float`, the output `(W, H)` satisfies
`H = W * ar` or `W = H / ar`, each computed in `float`, on every path. -/
theorem aspect_ratio_preserved (orig : Size → FloatVal → Size) (g : Settings) (size : Size)
    (scale : FloatVal) (ar : FloatVal)
    (habs : g.useAbsoluteSize = true) (hpres : g.preserveAspectRatio = true)
    (har : ar = FloatVal.div (orig size scale).Height (orig size scale).Width) :
    (ThumbnailHelpers_GetScaledThumbnailSize_Hook orig g size scale).Height
        = FloatVal.mul (ThumbnailHelpers_GetScaledThumbnailSize_Hook orig g size scale).Width ar
      ∨ (ThumbnailHelpers_GetScaledThumbnailSize_Hook orig g size scale).Width
        = FloatVal.div (ThumbnailHelpers_GetScaledThumbnailSize_Hook orig g size scale).Height
            ar := by
  rw [hook_preserve_stages orig g size scale habs hpres, ← har]
  cases hf : (heightStage g (FloatVal.mul (widthClampF g (orig size scale).Width) ar)).2 with
  | true =>
    simp only [if_true]
    rcases widthStage_cases g ar
      (FloatVal.div (heightStage g (FloatVal.mul (widthClampF g (orig size scale).Width) ar)).1
        ar)
      (heightStage g (FloatVal.mul (widthClampF g (orig size scale).Width) ar)).1 with h | h
    · exact Or.inl h
    · right
      rw [h]
  | false =>
    simp only [Bool.false_eq_true, if_false]
    left
    exact heightStage_unfired g _ hf

/-- Instance of the amended C2 on the baseline `(3, 1)`: the output height is the output width
times the `float` aspect ratio. -/
theorem aspect_ratio_preserved_witness :
    (ThumbnailHelpers_GetScaledThumbnailSize_Hook sampleOriginal aspectSettings
          ⟨fin 3, fin 1⟩ (fin 1)).Height
        = FloatVal.mul (ThumbnailHelpers_GetScaledThumbnailSize_Hook sampleOriginal
            aspectSettings ⟨fin 3, fin 1⟩ (fin 1)).Width (FloatVal.div (fin 1) (fin 3))
      ∨ (ThumbnailHelpers_GetScaledThumbnailSize_Hook sampleOriginal aspectSettings
          ⟨fin 3, fin 1⟩ (fin 1)).Width
        = FloatVal.div (ThumbnailHelpers_GetScaledThumbnailSize_Hook sampleOriginal
            aspectSettings ⟨fin 3, fin 1⟩ (fin 1)).Height (FloatVal.div (fin 1) (fin 3)) :=
  aspect_ratio_preserved sampleOriginal aspectSettings ⟨fin 3, fin 1⟩ (fin 1)
    (FloatVal.div (fin 1) (fin 3)) rfl rfl rfl

/-! ### No bound fires -/

/-- Counterexample to C3 as stated: with the default bounds no bound fires on the baseline
`(200, 209)`, and the output is `(200, 208.99998...)`, not the baseline: the height is
`200 * fl(209/200)` rounded to `float`. -/
theorem unfired_bounds_counterexample :
    (¬(200 : ℚ) < (aspectSettings.minWidth : ℚ) ∧ ¬(aspectSettings.maxWidth : ℚ) < 200
        ∧ ¬(209 : ℚ) < (aspectSettings.minHeight : ℚ) ∧ ¬(aspectSettings.maxHeight : ℚ) < 209)
      ∧ ThumbnailHelpers_GetScaledThumbnailSize_Hook sampleOriginal aspectSettings
          ⟨fin 200, fin 209⟩ (fin 1) = ⟨fin 200, fin (13697023 / 65536)⟩
      ∧ ThumbnailHelpers_GetScaledThumbnailSize_Hook sampleOriginal aspectSettings
          ⟨fin 200, fin 209⟩ (fin 1) ≠ ⟨fin 200, fin 209⟩ := by
  obtain ⟨h200, h400, h150, h300⟩ := ofInt_default_bounds
  have hT : FloatVal.mul (fin 200) (fin (8766095 / 8388608)) = fin (13697023 / 65536) := by
    rw [mul_fin_pos _ _ (by norm_num) (by norm_num),
      roundToFloat_eval_pos _ 7 (by norm_num) (by norm_num) (by norm_num)]
    norm_num [roundAt]
  have hW : widthClampF aspectSettings (fin 200) = fin 200 := by
    norm_num [widthClampF, aspectSettings, defaultSettings, h200, h400, FloatVal.lt,
      FloatVal.gt]
  have hS : heightStage aspectSettings (fin (13697023 / 65536))
      = (fin (13697023 / 65536), false) := by
    norm_num [heightStage, aspectSettings, defaultSettings, h150, h300, FloatVal.lt,
      FloatVal.gt]
  have e : ThumbnailHelpers_GetScaledThumbnailSize_Hook sampleOriginal aspectSettings
      ⟨fin 200, fin 209⟩ (fin 1) = ⟨fin 200, fin (13697023 / 65536)⟩ := by
    rw [hook_preserve_stages _ _ _ _ rfl rfl]
    simp only [sampleOriginal, div_209_200, hW, hT, hS, Bool.false_eq_true, if_false]
  refine ⟨by norm_num [aspectSettings, defaultSettings], e, ?_⟩
  rw [e]
  norm_num

/-- Claim C3, as amended: in absolute-size mode with preserveAspectRatio enabled, for every
baseline `(w, h)` and every config such that no width bound fires on `w` and no height bound
fires on the recomputed height `h1 = w * (h / w)` (computed in `float`), the output is exactly
`(w, h1)`; the comparisons are strict, so a value on a bound does not fire it. -/
theorem unfired_bounds_return_baseline (orig : Size → FloatVal → Size) (g : Settings)
    (size : Size) (scale : FloatVal) (w h h1 : FloatVal)
    (habs : g.useAbsoluteSize = true) (hpres : g.preserveAspectRatio = true)
    (hb : orig size scale = ⟨w, h⟩) (hh1 : h1 = FloatVal.mul w (FloatVal.div h w))
    (hminW : ¬(0 < g.minWidth ∧ FloatVal.lt w (FloatVal.ofInt g.minWidth) = true))
    (hmaxW : ¬(0 < g.maxWidth ∧ FloatVal.gt w (FloatVal.ofInt g.maxWidth) = true))
    (hminH : ¬(0 < g.minHeight ∧ FloatVal.lt h1 (FloatVal.ofInt g.minHeight) = true))
    (hmaxH : ¬(0 < g.maxHeight ∧ FloatVal.gt h1 (FloatVal.ofInt g.maxHeight) = true)) :
    ThumbnailHelpers_GetScaledThumbnailSize_Hook orig g size scale = ⟨w, h1⟩ := by
  rw [hook_preserve_stages orig g size scale habs hpres, hb]
  simp only [widthClampF_of_not g w hminW hmaxW, ← hh1, heightStage_of_not g h1 hminH hmaxH,
    Bool.false_eq_true, if_false]

/-- Instance of the amended C3 (scenario 1): the baseline `(300, 150)`, whose recomputed height
`300 * fl(150/300) = 150` sits on minHeight = 150, is returned unchanged. -/
theorem unfired_bounds_return_baseline_witness :
    FloatVal.mul (fin 300) (FloatVal.div (fin 150) (fin 300)) = fin 150
      ∧ ThumbnailHelpers_GetScaledThumbnailSize_Hook sampleOriginal aspectSettings
          ⟨fin 300, fin 150⟩ (fin 1) = ⟨fin 300, fin 150⟩ := by
  obtain ⟨h200, h400, h150, h300⟩ := ofInt_default_bounds
  have hA : FloatVal.div (fin 150) (fin 300) = fin (1 / 2) :=
    div_half 150 300 (by norm_num) (by norm_num) (by norm_num)
  have hT : FloatVal.mul (fin 300) (FloatVal.div (fin 150) (fin 300)) = fin 150 := by
    rw [hA]
    simpa using mul_fin_int 300 (1 / 2) 150 (by norm_num) (by norm_num) (by norm_num)
      (by norm_num) (by norm_num)
  exact ⟨hT, unfired_bounds_return_baseline sampleOriginal aspectSettings
    ⟨fin 300, fin 150⟩ (fin 1) (fin 300) (fin 150) (fin 150) rfl rfl rfl hT.symm
    (by norm_num [aspectSettings, defaultSettings, h200, FloatVal.lt])
    (by norm_num [aspectSettings, defaultSettings, h400, FloatVal.lt, FloatVal.gt])
    (by norm_num [aspectSettings, defaultSettings, h150, FloatVal.lt])
    (by norm_num [aspectSettings, defaultSettings, h300, FloatVal.lt, FloatVal.gt])⟩

/-! ### Legacy mode -/

/-- Claim C4: in legacy mode (useAbsoluteSize = false), for every input size, scale and config,
the result of the hook is the result of the original routine for
`(size, scale * percentageSize / 100)`, unmodified; so every config in legacy mode with the same
percentageSize (whatever its four bounds and preserveAspectRatio) gives the same output. -/
theorem legacy_mode_forwards_scaled_call (orig : Size → FloatVal → Size) (g : Settings)
    (size : Size) (scale : FloatVal) (hleg : g.useAbsoluteSize = false) :
    ThumbnailHelpers_GetScaledThumbnailSize_Hook orig g size scale
        = orig size (FloatVal.div (FloatVal.mul scale (FloatVal.ofInt g.percentageSize))
            (fin 100))
      ∧ ∀ g2 : Settings, g2.useAbsoluteSize = false → g2.percentageSize = g.percentageSize →
          ThumbnailHelpers_GetScaledThumbnailSize_Hook orig g2 size scale
            = ThumbnailHelpers_GetScaledThumbnailSize_Hook orig g size scale := by
  have key : ∀ k : Settings, k.useAbsoluteSize = false →
      ThumbnailHelpers_GetScaledThumbnailSize_Hook orig k size scale
        = orig size (FloatVal.div (FloatVal.mul scale (FloatVal.ofInt k.percentageSize))
            (fin 100)) := by
    intro k hk
    unfold ThumbnailHelpers_GetScaledThumbnailSize_Hook
    rw [hk]
    rfl
  refine ⟨key g hleg, ?_⟩
  intro g2 h2 hp
  rw [key g2 h2, key g hleg, hp]

/-- Instance of C4 (scenario 4): with `percentageSize = 150` and scale 1 the original routine
is called with scale `3/2`. -/
theorem legacy_mode_forwards_scaled_call_witness :
    legacySettings.useAbsoluteSize = false
      ∧ ThumbnailHelpers_GetScaledThumbnailSize_Hook scalingOriginal legacySettings
          ⟨fin 100, fin 50⟩ (fin 1) = scalingOriginal ⟨fin 100, fin 50⟩ (fin (3 / 2))
      ∧ ThumbnailHelpers_GetScaledThumbnailSize_Hook scalingOriginal
          { legacySettings with preserveAspectRatio := true }
          ⟨fin 100, fin 50⟩ (fin 1)
        = ThumbnailHelpers_GetScaledThumbnailSize_Hook scalingOriginal legacySettings
          ⟨fin 100, fin 50⟩ (fin 1) := by
  have key := legacy_mode_forwards_scaled_call scalingOriginal legacySettings
    ⟨fin 100, fin 50⟩ (fin 1) rfl
  have h1 : FloatVal.mul (fin 1) (FloatVal.ofInt legacySettings.percentageSize) = fin 150 := by
    rw [show legacySettings.percentageSize = 150 from rfl,
      ofInt_exact 150 (by decide) (by decide)]
    simpa using mul_fin_int 1 150 150 (by norm_num) (by norm_num) (by norm_num)
      (by norm_num) (by norm_num)
  have h2 : FloatVal.div (fin 150) (fin 100) = fin (3 / 2) := by
    rw [div_fin_pos _ _ (by norm_num) (by norm_num),
      roundToFloat_eval_pos _ 0 (by norm_num) (by norm_num) (by norm_num)]
    norm_num [roundAt]
  refine ⟨rfl, ?_, key.2 _ rfl rfl⟩
  rw [key.1, h1, h2]

/-! ### Two-pass resolution -/

/-- Counterexample to C5 as stated: for the baseline `(500, 600)` with the default bounds the
hypotheses of the claim hold in exact arithmetic (`w1 = 400`, `h1 = 480 > 300`, `H = 300`, and
`H / (h / w) = 250` lies within the width bounds), but the output is `(249.99998..., 300)`, not
`(250, 300)`: the aspect ratio and the quotient are rounded to `float`. -/
theorem two_pass_counterexample :
    ((400 : ℚ) * (600 / 500) = 480 ∧ (300 : ℚ) / (600 / 500) = 250)
      ∧ ThumbnailHelpers_GetScaledThumbnailSize_Hook sampleOriginal aspectSettings
          ⟨fin 500, fin 600⟩ (fin 1) = ⟨fin (16383999 / 65536), fin 300⟩
      ∧ ThumbnailHelpers_GetScaledThumbnailSize_Hook sampleOriginal aspectSettings
          ⟨fin 500, fin 600⟩ (fin 1) ≠ ⟨fin 250, fin 300⟩ := by
  obtain ⟨hT, _, hS, _, hD⟩ := five_six_steps aspectSettings rfl rfl
  have hW : widthClampF aspectSettings (fin 500) = fin 400 := by
    rw [widthClampF_default aspectSettings rfl rfl]; norm_num
  have hne : (widthStage aspectSettings (fin (5033165 / 4194304)) (fin (16383999 / 65536))
      (fin 300)) = (fin (16383999 / 65536), fin 300) :=
    widthStage_default aspectSettings rfl rfl _ _ _ (by norm_num) (by norm_num)
  have e : ThumbnailHelpers_GetScaledThumbnailSize_Hook sampleOriginal aspectSettings
      ⟨fin 500, fin 600⟩ (fin 1) = ⟨fin (16383999 / 65536), fin 300⟩ := by
    rw [hook_preserve_stages _ _ _ _ rfl rfl]
    simp only [sampleOriginal, div_six_five, hW, hT, hS, hD, hne, if_true]
  refine ⟨by norm_num, e, ?_⟩
  rw [e]
  norm_num

/-- Claim C5, as amended: in absolute-size mode with preserveAspectRatio enabled, for every
baseline `(w, h)`, with all operations in `float`: let `ar = h / w`, `w1` the width `w` clamped
to the width bounds and `h1 = w1 * ar`; if `h1` is below a minHeight in force or above a
maxHeight in force, let `H` be the clamped height; then, whenever `H / ar` violates no width
bound, the output is exactly `(H / ar, H)`. -/
theorem two_pass_resolution (orig : Size → FloatVal → Size) (g : Settings)
    (size : Size) (scale : FloatVal) (w h ar w1 h1 H : FloatVal)
    (habs : g.useAbsoluteSize = true) (hpres : g.preserveAspectRatio = true)
    (hb : orig size scale = ⟨w, h⟩)
    (har : ar = FloatVal.div h w) (hw1 : w1 = widthClampF g w)
    (hh1 : h1 = FloatVal.mul w1 ar) (hH : H = (heightStage g h1).1)
    (hfire : (0 < g.minHeight ∧ FloatVal.lt h1 (FloatVal.ofInt g.minHeight) = true)
      ∨ (0 < g.maxHeight ∧ FloatVal.gt h1 (FloatVal.ofInt g.maxHeight) = true))
    (hminW : ¬(0 < g.minWidth
      ∧ FloatVal.lt (FloatVal.div H ar) (FloatVal.ofInt g.minWidth) = true))
    (hmaxW : ¬(0 < g.maxWidth
      ∧ FloatVal.gt (FloatVal.div H ar) (FloatVal.ofInt g.maxWidth) = true)) :
    ThumbnailHelpers_GetScaledThumbnailSize_Hook orig g size scale
      = ⟨FloatVal.div H ar, H⟩ := by
  rw [hook_preserve_stages orig g size scale habs hpres, hb]
  simp only [← har, ← hw1, ← hh1, heightStage_of_fires g h1 hfire, ← hH, if_true,
    widthStage_of_not g ar _ H hminW hmaxW]

/-- Instance of the amended C5 (scenario 2): the baseline `(100, 50)` with width bounds
`(200, 400)` and height bounds `(150, 300)` gives `(300, 150)`; every step is exact. -/
theorem two_pass_resolution_witness :
    ThumbnailHelpers_GetScaledThumbnailSize_Hook sampleOriginal aspectSettings
      ⟨fin 100, fin 50⟩ (fin 1) = ⟨fin 300, fin 150⟩ := by
  obtain ⟨h200, h400, h150, h300⟩ := ofInt_default_bounds
  obtain ⟨hA, hT, _, hS, _, hD⟩ := scenario_two_steps aspectSettings rfl rfl
  have hW : widthClampF aspectSettings (fin 100) = fin 200 := by
    rw [widthClampF_default aspectSettings rfl rfl]; norm_num
  have hH : (heightStage aspectSettings (fin 100)).1 = fin 150 := by rw [hS]
  have key := two_pass_resolution sampleOriginal aspectSettings ⟨fin 100, fin 50⟩ (fin 1)
    (fin 100) (fin 50) (fin (1 / 2)) (fin 200) (fin 100) (fin 150) rfl rfl rfl
    hA.symm hW.symm hT.symm hH.symm
    (Or.inl ⟨by decide, by rw [show aspectSettings.minHeight = 150 from rfl, h150]; rfl⟩)
    (by rw [hD, show aspectSettings.minWidth = 200 from rfl, h200]
        norm_num [FloatVal.lt])
    (by rw [hD, show aspectSettings.maxWidth = 400 from rfl, h400]
        norm_num [FloatVal.lt, FloatVal.gt])
  rw [key, hD]

/-! ### Conflicting width bounds -/

/-- Counterexample to C6 as stated: with `minWidth = 400 > maxWidth = 200` and baseline width
100, the output width in independent-axis mode is 200 (maxWidth), not 400 (minWidth). With
`minWidth = 16777218 > maxWidth = 16777217` it is 16777216, the `float` that maxWidth converts
to, and a baseline width NaN is written back as NaN. -/
theorem conflicting_width_bounds_counterexample :
    ((ThumbnailHelpers_GetScaledThumbnailSize_Hook sampleOriginal conflictSettings
        ⟨fin 100, fin 200⟩ (fin 1)).Width = fin 200
      ∧ (ThumbnailHelpers_GetScaledThumbnailSize_Hook sampleOriginal conflictSettings
        ⟨fin 100, fin 200⟩ (fin 1)).Width ≠ fin (conflictSettings.minWidth : ℚ))
      ∧ (ThumbnailHelpers_GetScaledThumbnailSize_Hook sampleOriginal hugeConflictSettings
        ⟨fin 100, fin 200⟩ (fin 1)).Width = fin 16777216
      ∧ (ThumbnailHelpers_GetScaledThumbnailSize_Hook sampleOriginal conflictSettings
        ⟨nan, fin 200⟩ (fin 1)).Width = nan := by
  obtain ⟨h200, h400, _, _⟩ := ofInt_default_bounds
  have e : (ThumbnailHelpers_GetScaledThumbnailSize_Hook sampleOriginal conflictSettings
      ⟨fin 100, fin 200⟩ (fin 1)).Width = fin 200 := by
    rw [hook_independent_width _ _ _ _ rfl rfl]
    unfold widthClampF
    rw [show conflictSettings.minWidth = 400 from rfl,
      show conflictSettings.maxWidth = 200 from rfl, h200, h400]
    norm_num [sampleOriginal, FloatVal.lt, FloatVal.gt]
  refine ⟨⟨e, ?_⟩, ?_, ?_⟩
  · rw [e, show conflictSettings.minWidth = 400 from rfl]
    norm_num
  · rw [hook_independent_width _ _ _ _ rfl rfl]
    unfold widthClampF
    rw [show hugeConflictSettings.minWidth = 16777218 from rfl,
      show hugeConflictSettings.maxWidth = 16777217 from rfl, ofInt_huge, ofInt_huge_even]
    norm_num [sampleOriginal, FloatVal.lt, FloatVal.gt]
  · rw [hook_independent_width _ _ _ _ rfl rfl]
    exact widthClampF_nan conflictSettings

/-- Claim C6, as amended: when the width bounds conflict, the maximum dominates. For every
config with `0 < maxWidth < minWidth` whose two width bounds convert to `float` exactly and
every baseline whose width is not NaN, the output width in independent-axis mode is
`maxWidth`, because the maximum is applied after the minimum. -/
theorem conflicting_width_bounds_max_dominates (orig : Size → FloatVal → Size) (g : Settings)
    (size : Size) (scale : FloatVal)
    (habs : g.useAbsoluteSize = true) (hind : g.preserveAspectRatio = false)
    (hmax : 0 < g.maxWidth) (hlt : g.maxWidth < g.minWidth)
    (hrmin : FloatVal.ofInt g.minWidth = fin (g.minWidth : ℚ))
    (hrmax : FloatVal.ofInt g.maxWidth = fin (g.maxWidth : ℚ))
    (hnan : (orig size scale).Width ≠ nan) :
    (ThumbnailHelpers_GetScaledThumbnailSize_Hook orig g size scale).Width
      = fin (g.maxWidth : ℚ) := by
  rw [hook_independent_width orig g size scale habs hind]
  exact widthClampF_conflict g _ hmax hlt hrmin hrmax hnan

/-- Instance of the amended C6: baseline width 500 with `minWidth = 400 > maxWidth = 200`. -/
theorem conflicting_width_bounds_max_dominates_witness :
    (0 < conflictSettings.maxWidth ∧ conflictSettings.maxWidth < conflictSettings.minWidth)
      ∧ (ThumbnailHelpers_GetScaledThumbnailSize_Hook sampleOriginal conflictSettings
          ⟨fin 500, fin 200⟩ (fin 1)).Width = fin (conflictSettings.maxWidth : ℚ) :=
  ⟨⟨by decide, by decide⟩,
    conflicting_width_bounds_max_dominates sampleOriginal conflictSettings
      ⟨fin 500, fin 200⟩ (fin 1) rfl rfl (by decide) (by decide)
      (ofInt_exact 400 (by decide) (by decide)) (ofInt_exact 200 (by decide) (by decide))
      (by simp [sampleOriginal])⟩

/-! ### Baseline of width zero -/

/-- Counterexample to C7 as stated: with the default bounds and preserveAspectRatio enabled, the
baseline `(0, 100)` gives `(200, +inf)`, whereas independent clamping of that baseline gives
`(200, 150)`: the division by the zero width is performed and an infinite height reaches the
output. -/
theorem zero_width_counterexample :
    ThumbnailHelpers_GetScaledThumbnailSize_Hook sampleOriginal aspectSettings
        ⟨fin 0, fin 100⟩ (fin 1) = ⟨fin 200, pinf⟩
      ∧ ThumbnailHelpers_GetScaledThumbnailSize_Hook sampleOriginal
          { aspectSettings with preserveAspectRatio := false }
          ⟨fin 0, fin 100⟩ (fin 1) = ⟨fin 200, fin 150⟩
      ∧ ThumbnailHelpers_GetScaledThumbnailSize_Hook sampleOriginal aspectSettings
          ⟨fin 0, fin 100⟩ (fin 1)
        ≠ ThumbnailHelpers_GetScaledThumbnailSize_Hook sampleOriginal
          { aspectSettings with preserveAspectRatio := false } ⟨fin 0, fin 100⟩ (fin 1) := by
  obtain ⟨h200, h400, h150, h300⟩ := ofInt_default_bounds
  have hA : FloatVal.div (fin 100) (fin 0) = pinf := by
    norm_num [FloatVal.div, FloatVal.inf]
  have hW : widthClampF aspectSettings (fin 0) = fin 200 := by
    rw [widthClampF_default aspectSettings rfl rfl]; norm_num
  have hT : FloatVal.mul (fin 200) pinf = pinf := mul_pos_inf 200 (by norm_num) pinf (Or.inl rfl)
  have hS : heightStage aspectSettings pinf = (fin 300, true) := by
    unfold heightStage
    rw [show aspectSettings.minHeight = 150 from rfl,
      show aspectSettings.maxHeight = 300 from rfl, h150, h300]
    norm_num [FloatVal.lt, FloatVal.gt]
  have hD : FloatVal.div (fin 300) pinf = fin 0 := by
    norm_num [FloatVal.div, FloatVal.zero]
  have hR : widthStage aspectSettings pinf (fin 0) (fin 300) = (fin 200, pinf) := by
    rw [widthStage_zero aspectSettings pinf (fin 0) (fin 300) (Or.inl rfl) (Or.inl rfl)
      (by decide), hW]
  have e1 : ThumbnailHelpers_GetScaledThumbnailSize_Hook sampleOriginal aspectSettings
      ⟨fin 0, fin 100⟩ (fin 1) = ⟨fin 200, pinf⟩ := by
    rw [hook_preserve_stages _ _ _ _ rfl rfl]
    simp only [sampleOriginal, hA, hW, hT, hS, hD, hR, if_true]
  have e2 : ThumbnailHelpers_GetScaledThumbnailSize_Hook sampleOriginal
      { aspectSettings with preserveAspectRatio := false }
      ⟨fin 0, fin 100⟩ (fin 1) = ⟨fin 200, fin 150⟩ := by
    unfold ThumbnailHelpers_GetScaledThumbnailSize_Hook
    simp only [sampleOriginal, aspectSettings, defaultSettings, if_true, h200, h400, h150, h300,
      Bool.false_eq_true, if_false]
    norm_num [FloatVal.lt, FloatVal.gt]
  refine ⟨e1, e2, ?_⟩
  rw [e1, e2]
  simp

/-- Claim C7, as amended: the division by a zero baseline width is not guarded. For every config
with useAbsoluteSize and preserveAspectRatio enabled and every baseline of width 0 (either
zero of `float`, any height), the aspect ratio `height / 0` is computed (an infinity or NaN)
and used; the output width equals the width that independent clamping gives for that
baseline, and the output height is never finite. -/
theorem zero_width_not_guarded (orig : Size → FloatVal → Size) (g : Settings)
    (size : Size) (scale : FloatVal) (z x : FloatVal)
    (habs : g.useAbsoluteSize = true) (hpres : g.preserveAspectRatio = true)
    (hz : z = fin 0 ∨ z = nzero) (hb : orig size scale = ⟨z, x⟩) :
    (ThumbnailHelpers_GetScaledThumbnailSize_Hook orig g size scale).Width
        = (ThumbnailHelpers_GetScaledThumbnailSize_Hook orig
            { g with preserveAspectRatio := false } size scale).Width
      ∧ (ThumbnailHelpers_GetScaledThumbnailSize_Hook orig g size scale).Height.isFinite
          = false := by
  rw [hook_independent_width orig { g with preserveAspectRatio := false } size scale habs rfl,
    hook_preserve_stages orig g size scale habs hpres, hb, widthClampF_independent]
  simp only
  have har := div_zero_cases x z hz
  generalize FloatVal.div x z = ar at har
  by_cases c5 : 0 < g.minWidth
  · obtain ⟨v, hv, h1, h2⟩ := widthClampF_zero_pos g z hz c5
    rw [h1]
    rcases har with hn | hinf
    · subst hn
      have hm : FloatVal.mul (fin v) nan = nan := by simp [FloatVal.mul]
      rw [hm, heightStage_nan]
      simp [FloatVal.isFinite]
    · rw [mul_pos_inf v hv ar hinf]
      cases hf : (heightStage g ar).2 with
      | false =>
        simp only [Bool.false_eq_true, if_false, true_and]
        rw [heightStage_unfired g ar hf]
        exact isFinite_special ar (Or.inr hinf)
      | true =>
        obtain ⟨y, hy, hH⟩ := heightStage_fired_pos g ar hf
        simp only [if_true, hH]
        rw [widthStage_zero g ar _ (fin y) hinf (div_pos_inf y hy ar hinf) c5, h2]
        exact ⟨rfl, isFinite_special ar (Or.inr hinf)⟩
  · rw [widthClampF_zero_of_not g z hz c5, mul_zero_special z ar hz har, heightStage_nan]
    simp [FloatVal.isFinite]

/-- Instance of the amended C7: the baseline `(-0, 0)`, whose aspect ratio is NaN. -/
theorem zero_width_not_guarded_witness :
    sampleOriginal ⟨nzero, fin 0⟩ (fin 1) = ⟨nzero, fin 0⟩
      ∧ (ThumbnailHelpers_GetScaledThumbnailSize_Hook sampleOriginal aspectSettings
            ⟨nzero, fin 0⟩ (fin 1)).Width
          = (ThumbnailHelpers_GetScaledThumbnailSize_Hook sampleOriginal
              { aspectSettings with preserveAspectRatio := false }
              ⟨nzero, fin 0⟩ (fin 1)).Width
      ∧ (ThumbnailHelpers_GetScaledThumbnailSize_Hook sampleOriginal aspectSettings
            ⟨nzero, fin 0⟩ (fin 1)).Height.isFinite = false :=
  ⟨rfl, zero_width_not_guarded sampleOriginal aspectSettings ⟨nzero, fin 0⟩ (fin 1) nzero
    (fin 0) rfl rfl (Or.inr rfl) rfl⟩

/-! ### Zero width bounds -/

/-- Counterexample to C8 as stated: with both width bounds 0 and the default height bounds, the
baseline `(500, 600)` in aspect-preserving mode gives `(249.99998..., 300)`, not
`(H * w / h, H) = (250, 300)`: the aspect ratio and the quotient are rounded to `float`. -/
theorem zero_width_bounds_counterexample :
    (zeroWidthSettings.minWidth = 0 ∧ zeroWidthSettings.maxWidth = 0
        ∧ (300 : ℚ) * 500 / 600 = 250)
      ∧ ThumbnailHelpers_GetScaledThumbnailSize_Hook sampleOriginal zeroWidthSettings
          ⟨fin 500, fin 600⟩ (fin 1) = ⟨fin (16383999 / 65536), fin 300⟩
      ∧ ThumbnailHelpers_GetScaledThumbnailSize_Hook sampleOriginal zeroWidthSettings
          ⟨fin 500, fin 600⟩ (fin 1) ≠ ⟨fin 250, fin 300⟩ := by
  obtain ⟨_, hT, _, hS, hD⟩ := five_six_steps zeroWidthSettings rfl rfl
  have hW : ∀ t : FloatVal, widthClampF zeroWidthSettings t = t := by
    intro t
    apply widthClampF_of_not <;> exact fun hc => absurd hc.1 (by decide)
  have hR : ∀ ar t th : FloatVal, widthStage zeroWidthSettings ar t th = (t, th) := by
    intro ar t th
    apply widthStage_of_not <;> exact fun hc => absurd hc.1 (by decide)
  have e : ThumbnailHelpers_GetScaledThumbnailSize_Hook sampleOriginal zeroWidthSettings
      ⟨fin 500, fin 600⟩ (fin 1) = ⟨fin (16383999 / 65536), fin 300⟩ := by
    rw [hook_preserve_stages _ _ _ _ rfl rfl]
    simp only [sampleOriginal, div_six_five, hW, hT, hS, hD, hR, if_true]
  refine ⟨⟨rfl, rfl, by norm_num⟩, e, ?_⟩
  rw [e]
  norm_num

/-- Claim C8, as amended: with `minWidth = 0` and `maxWidth = 0` in absolute-size mode no width
comparison fires. In independent-axis mode the output width is the baseline width, for every
baseline and all height bounds; in aspect-preserving mode, for every baseline `(w, h)`, with
`ar = h / w` and `h1 = w * ar` computed in `float`, the output is `(w, h1)` when `h1` violates no
height bound and otherwise `(H / ar, H)`, computed in `float`, with `H` the height `h1` clamped
to the height bounds. -/
theorem zero_width_bounds_unconstrained (orig : Size → FloatVal → Size) (g : Settings)
    (size : Size) (scale : FloatVal)
    (habs : g.useAbsoluteSize = true) (hmin : g.minWidth = 0) (hmax : g.maxWidth = 0) :
    (g.preserveAspectRatio = false →
      (ThumbnailHelpers_GetScaledThumbnailSize_Hook orig g size scale).Width
        = (orig size scale).Width)
    ∧ (g.preserveAspectRatio = true → ∀ w h ar h1 : FloatVal,
        orig size scale = ⟨w, h⟩ → ar = FloatVal.div h w → h1 = FloatVal.mul w ar →
        ThumbnailHelpers_GetScaledThumbnailSize_Hook orig g size scale
          = if (heightStage g h1).2 = true then
              ⟨FloatVal.div (heightStage g h1).1 ar, (heightStage g h1).1⟩
            else ⟨w, h1⟩) := by
  have hcl : ∀ t : FloatVal, widthClampF g t = t := by
    intro t
    apply widthClampF_of_not
    · rw [hmin]; exact fun hc => lt_irrefl _ hc.1
    · rw [hmax]; exact fun hc => lt_irrefl _ hc.1
  have hws : ∀ ar t th : FloatVal, widthStage g ar t th = (t, th) := by
    intro ar t th
    apply widthStage_of_not
    · rw [hmin]; exact fun hc => lt_irrefl _ hc.1
    · rw [hmax]; exact fun hc => lt_irrefl _ hc.1
  constructor
  · intro hind
    rw [hook_independent_width orig g size scale habs hind, hcl]
  · intro hpres w h ar h1 hb har hh1
    rw [hook_preserve_stages orig g size scale habs hpres, hb]
    simp only [hcl, hws, ← har, ← hh1]
    cases hf : (heightStage g h1).2 with
    | true => simp
    | false =>
      simp only [Bool.false_eq_true, if_false]
      rw [heightStage_unfired g h1 hf]

/-- Instance of the amended C8: with both width bounds 0 and the default height bounds, the
baseline `(100, 50)` gives `(300, 150)` in aspect-preserving mode. -/
theorem zero_width_bounds_unconstrained_witness :
    (zeroWidthSettings.minWidth = 0 ∧ zeroWidthSettings.maxWidth = 0)
      ∧ ThumbnailHelpers_GetScaledThumbnailSize_Hook sampleOriginal zeroWidthSettings
          ⟨fin 100, fin 50⟩ (fin 1) = ⟨fin 300, fin 150⟩ := by
  obtain ⟨hA, _, hT, _, hS, hD⟩ := scenario_two_steps zeroWidthSettings rfl rfl
  have key := (zero_width_bounds_unconstrained sampleOriginal zeroWidthSettings
    ⟨fin 100, fin 50⟩ (fin 1) rfl rfl rfl).2 rfl (fin 100) (fin 50) (fin (1 / 2)) (fin 50)
    rfl hA.symm hT.symm
  refine ⟨⟨rfl, rfl⟩, ?_⟩
  rw [key, hS]
  simp only [if_true, hD]

/-! ### Hook installation -/

/-- Claim C9: for every run that starts with `Wh_ModInit` and continues with any load events
and `Wh_ModAfterInit` calls, with arbitrary module lookups and arbitrary success or failure of
the installation, `HookTaskbarViewDllSymbols` has been called at most once at every point of
the run, and once the flag is true it is true after every continuation of the run. -/
theorem hook_installation_at_most_once (e0 : Env) (evs : List Event) :
    (runMod e0 evs).hookCalls ≤ 1
      ∧ ∀ more : List Event, (runMod e0 evs).g_taskbarViewDllLoaded = true →
          (runMod e0 (evs ++ more)).g_taskbarViewDllLoaded = true := by
  have h1 := foldl_step_spec evs _ (Wh_ModInit_acquired e0)
  refine ⟨h1.1.1, ?_⟩
  intro more hflag
  unfold runMod at hflag ⊢
  rw [List.foldl_append]
  exact (foldl_step_spec more _ h1.1).2 hflag

/-- Instance of C9: the module is absent at `Wh_ModInit`, then it is loaded and the
installation fails, then `Wh_ModAfterInit` and a second load event run with a working
installation: the flag stays true and the installation has run once. -/
theorem hook_installation_at_most_once_witness :
    (runMod envAbsent [Event.load envFailing 7]).g_taskbarViewDllLoaded = true
      ∧ (runMod envAbsent [Event.load envFailing 7]).hookCalls = 1
      ∧ (runMod envAbsent ([Event.load envFailing 7]
          ++ [Event.afterInit envLoaded, Event.load envLoaded 7])).hookCalls ≤ 1
      ∧ (runMod envAbsent ([Event.load envFailing 7]
          ++ [Event.afterInit envLoaded, Event.load envLoaded 7])).g_taskbarViewDllLoaded
          = true :=
  ⟨by decide, by decide,
    (hook_installation_at_most_once envAbsent ([Event.load envFailing 7]
      ++ [Event.afterInit envLoaded, Event.load envLoaded 7])).1,
    (hook_installation_at_most_once envAbsent [Event.load envFailing 7]).2
      [Event.afterInit envLoaded, Event.load envLoaded 7] (by decide)⟩

/-! ### Width bounds in aspect-preserving mode -/

/-- Counterexample to C10 as stated: with `minWidth = maxWidth = 16777217` and
preserveAspectRatio enabled, the baseline `(100, 100)` gives the width 16777216, below
minWidth: the conversion of the bound to `float` rounds it. -/
theorem preserve_width_counterexample :
    (0 < hugeAspectSettings.minWidth
        ∧ hugeAspectSettings.minWidth ≤ hugeAspectSettings.maxWidth)
      ∧ (ThumbnailHelpers_GetScaledThumbnailSize_Hook sampleOriginal hugeAspectSettings
          ⟨fin 100, fin 100⟩ (fin 1)).Width = fin 16777216
      ∧ (16777216 : ℚ) < (hugeAspectSettings.minWidth : ℚ) := by
  have hc : ∀ t : FloatVal, widthClampF hugeAspectSettings t = widthClampF hugeSettings t :=
    fun _ => rfl
  have hm : hugeAspectSettings.minWidth = 16777217 := rfl
  refine ⟨⟨by rw [hm]; norm_num, le_refl _⟩, ?_, by rw [hm]; norm_num⟩
  rw [hook_preserve_stages _ _ _ _ rfl rfl]
  simp only [sampleOriginal, widthStage_fst, hc]
  obtain ⟨_, _, h150, h300⟩ := ofInt_default_bounds
  have hA : FloatVal.div (fin 100) (fin 100) = fin 1 := by
    simpa using div_fin_int 100 100 1 (by norm_num) (by norm_num) (by norm_num)
      (by norm_num) (by norm_num)
  have hW : widthClampF hugeSettings (fin 100) = fin 16777216 :=
    widthClampF_huge (fin 100) 100 rfl (by norm_num)
  have hT : FloatVal.mul (fin 16777216) (fin 1) = fin 16777216 := by
    simpa using mul_fin_int 16777216 1 16777216 (by norm_num) (by norm_num) (by norm_num)
      (by norm_num) (by norm_num)
  have hS : heightStage hugeAspectSettings (fin 16777216) = (fin 300, true) := by
    unfold heightStage
    rw [show hugeAspectSettings.minHeight = 150 from rfl,
      show hugeAspectSettings.maxHeight = 300 from rfl, h150, h300]
    norm_num [FloatVal.lt, FloatVal.gt]
  have hD : FloatVal.div (fin 300) (fin 1) = fin 300 := by
    simpa using div_fin_int 300 1 300 (by norm_num) (by norm_num) (by norm_num)
      (by norm_num) (by norm_num)
  rw [hA, hW, hT, hS]
  simp only [if_true, hD]
  exact widthClampF_huge (fin 300) 300 rfl (by norm_num)

/-- Claim C10, as amended: in absolute-size mode with preserveAspectRatio enabled, for every
config with `0 < minWidth ≤ maxWidth` whose two width bounds convert to `float` exactly (any
height bounds) and every finite baseline `(w, h)` with `w > 0` (any `h`, so in particular
`h > 0`), the output width is finite and lies in `[minWidth, maxWidth]`. -/
theorem preserve_width_within_bounds (orig : Size → FloatVal → Size) (g : Settings)
    (size : Size) (scale : FloatVal) (w h : ℚ)
    (habs : g.useAbsoluteSize = true) (hpres : g.preserveAspectRatio = true)
    (hmin : 0 < g.minWidth) (hle : g.minWidth ≤ g.maxWidth)
    (hrmin : FloatVal.ofInt g.minWidth = fin (g.minWidth : ℚ))
    (hrmax : FloatVal.ofInt g.maxWidth = fin (g.maxWidth : ℚ))
    (hb : orig size scale = ⟨fin w, fin h⟩) (hw : 0 < w) :
    ∃ W : ℚ, (ThumbnailHelpers_GetScaledThumbnailSize_Hook orig g size scale).Width = fin W
      ∧ (g.minWidth : ℚ) ≤ W ∧ W ≤ (g.maxWidth : ℚ) := by
  rw [hook_preserve_stages orig g size scale habs hpres, hb]
  simp only
  have har : FloatVal.div (fin h) (fin w) ≠ nan := div_fin_fin_ne_nan h w (ne_of_gt hw)
  cases hf : (heightStage g (FloatVal.mul (widthClampF g (fin w))
      (FloatVal.div (fin h) (fin w)))).2 with
  | true =>
    obtain ⟨y, hy, hH⟩ := heightStage_fired_pos g _ hf
    simp only [if_true, widthStage_fst, hH]
    obtain ⟨W, h1, h2, h3, _⟩ := widthClampF_mem g
      (FloatVal.div (fin y) (FloatVal.div (fin h) (fin w))) hmin hle hrmin hrmax
      (div_fin_ne_nan y (ne_of_gt hy) _ har)
    exact ⟨W, h1, h2, h3⟩
  | false =>
    simp only [Bool.false_eq_true, if_false]
    obtain ⟨W, h1, h2, h3, _⟩ := widthClampF_mem g (fin w) hmin hle hrmin hrmax (by simp)
    exact ⟨W, h1, h2, h3⟩

/-- Instance of the amended C10: baseline `(100, 10)` with the default bounds, which convert
exactly. -/
theorem preserve_width_within_bounds_witness :
    (0 < aspectSettings.minWidth ∧ aspectSettings.minWidth ≤ aspectSettings.maxWidth)
      ∧ ∃ W : ℚ, (ThumbnailHelpers_GetScaledThumbnailSize_Hook sampleOriginal aspectSettings
            ⟨fin 100, fin 10⟩ (fin 1)).Width = fin W
          ∧ (aspectSettings.minWidth : ℚ) ≤ W ∧ W ≤ (aspectSettings.maxWidth : ℚ) :=
  ⟨⟨by decide, by decide⟩,
    preserve_width_within_bounds sampleOriginal aspectSettings ⟨fin 100, fin 10⟩ (fin 1)
      100 10 rfl rfl (by decide) (by decide) (ofInt_exact 200 (by decide) (by decide))
      (ofInt_exact 400 (by decide) (by decide)) rfl (by norm_num)⟩

end TaskbarThumbnails
